import Mathlib

/-!
Verification of the Forge `.cx` compiler front end (lexer → parser → semantic
analyzer) from `src/compiler/src/{lexer,parser,analyzer,ast}.{c,h}`.

The embedding models C strings as `List Char` (a C source buffer is
NUL-terminated, so the effective source never contains a NUL character; end of
the list plays the role of the terminating NUL).  Cursors (`Lexer.current`,
`Token.start`) are offsets (`Nat`) into the fixed source buffer, mirroring the
C pointer arithmetic.  The lexer's `line` counter is incremented once per
newline consumed while moving forward, exactly as the C `advance` helper and
the manual raw-scan loops do; backward cursor resets (in `collect_expr`) leave
it unchanged, as in the C code.  Diagnostic text, columns and the `filename`
field are omitted: they feed only `fprintf` calls.  The lexer's one-token peek
buffer (`has_peek`) is omitted: the parser never calls `lexer_peek_token`.
Loops whose C termination argument is "the cursor moves forward through a
NUL-terminated buffer" are written either by structural recursion on the
remaining suffix or with an explicit fuel argument (parser recursion).
-/

set_option maxRecDepth 10000
set_option maxHeartbeats 2000000
set_option linter.unnecessarySeqFocus false

namespace Forge

/-! ## C character classification (ASCII, as used by ctype.h on the source) -/

def isDigitC (c : Char) : Bool := 48 ≤ c.toNat && c.toNat ≤ 57

def isAlphaC (c : Char) : Bool :=
  (65 ≤ c.toNat && c.toNat ≤ 90) || (97 ≤ c.toNat && c.toNat ≤ 122)

def isAlnumC (c : Char) : Bool := isAlphaC c || isDigitC c

def isSpaceC (c : Char) : Bool :=
  c = ' ' || c = '\t' || c = '\n' || c = '\x0b' || c = '\x0c' || c = '\r'

def isXdigitC (c : Char) : Bool :=
  isDigitC c || (65 ≤ c.toNat && c.toNat ≤ 70) || (97 ≤ c.toNat && c.toNat ≤ 102)

/-- `*p` for an offset into the source: the terminating NUL past the end. -/
def charAt (s : List Char) (i : Nat) : Char := s.getD i (Char.ofNat 0)

/-- Length of the prefix satisfying `p` (a `while (p(*cur)) cur++;` loop). -/
def countWhile (p : Char → Bool) : List Char → Nat
  | [] => 0
  | c :: rest => if p c then countWhile p rest + 1 else 0

/-! ## Token kinds (`lexer.h`) -/

inductive TokenType where
  | TOK_AT_COMPONENT | TOK_AT_PROPS | TOK_AT_STATE | TOK_AT_STYLE
  | TOK_AT_TEMPLATE | TOK_AT_ON | TOK_AT_COMPUTED
  | TOK_INT | TOK_CHAR | TOK_BOOL | TOK_FLOAT
  | TOK_DOUBLE | TOK_VOID | TOK_LONG | TOK_SHORT
  | TOK_UNSIGNED | TOK_SIGNED | TOK_STRUCT | TOK_ENUM
  | TOK_CONST | TOK_STATIC | TOK_EXTERN | TOK_INLINE
  | TOK_TYPEDEF | TOK_SIZEOF
  | TOK_IF | TOK_ELSE | TOK_FOR | TOK_WHILE | TOK_DO
  | TOK_RETURN | TOK_BREAK | TOK_CONTINUE | TOK_SWITCH
  | TOK_CASE | TOK_DEFAULT
  | TOK_TRUE | TOK_FALSE | TOK_NULL
  | TOK_HASH | TOK_INCLUDE
  | TOK_IDENT | TOK_INT_LIT | TOK_FLOAT_LIT | TOK_STRING_LIT | TOK_CHAR_LIT
  | TOK_LBRACE | TOK_RBRACE | TOK_LPAREN | TOK_RPAREN
  | TOK_LBRACKET | TOK_RBRACKET | TOK_SEMICOLON | TOK_COMMA
  | TOK_DOT | TOK_COLON | TOK_QUESTION
  | TOK_LT | TOK_GT | TOK_SLASH | TOK_HTML_TEXT | TOK_HTML_ATTR
  | TOK_PLUS | TOK_MINUS | TOK_STAR | TOK_PERCENT | TOK_AMPERSAND
  | TOK_PIPE | TOK_CARET | TOK_BANG | TOK_TILDE | TOK_LSHIFT | TOK_RSHIFT
  | TOK_PLUSPLUS | TOK_MINUSMINUS | TOK_ARROW
  | TOK_ASSIGN | TOK_PLUSEQ | TOK_MINUSEQ | TOK_STAREQ | TOK_SLASHEQ
  | TOK_PERCENTEQ | TOK_AMPEQ | TOK_PIPEEQ | TOK_CARETEQ
  | TOK_EQEQ | TOK_NEQ | TOK_LT_EQ | TOK_GT_EQ
  | TOK_AND | TOK_OR
  | TOK_EOF | TOK_ERROR
deriving DecidableEq

inductive LexMode where
  | LEX_MODE_C | LEX_MODE_TEMPLATE | LEX_MODE_EXPR | LEX_MODE_STYLE
deriving DecidableEq

open TokenType LexMode

/-- A token.  `start`/`length` delimit the token's span in the source buffer.
`int_val`/`str_val` model the C value union (`float_val` carries no
information any claim touches and floating point is out of scope, so it is
not modelled).  An error token's message lives in `err_msg` (the C code
repurposes the `start` pointer for it; here `start` stays a source offset). -/
structure Token where
  type : TokenType
  start : Nat
  length : Nat
  line : Nat
  int_val : Int := 0
  str_val : Option (List Char) := none
  err_msg : Option String := none
deriving DecidableEq

structure Lexer where
  src : List Char
  pos : Nat
  line : Nat
  mode : LexMode
  template_depth : Int
  expr_depth : Int
deriving DecidableEq

def lexer_init (source : List Char) : Lexer :=
  { src := source, pos := 0, line := 1, mode := LEX_MODE_C,
    template_depth := 0, expr_depth := 0 }

/-- Move the cursor forward by `n` characters, bumping `line` once per newline
consumed (the cumulative effect of the C `advance` helper / manual scans). -/
def fwd (lex : Lexer) (n : Nat) : Lexer :=
  { lex with pos := lex.pos + n,
             line := lex.line + (((lex.src.drop lex.pos).take n).count '\n') }

/-- The remaining input (`lex->current` as a suffix). -/
def rest (lex : Lexer) : List Char := lex.src.drop lex.pos

def make_token (lex : Lexer) (t : TokenType) (start : Nat) : Token :=
  { type := t, start := start, length := lex.pos - start, line := lex.line }

def error_token (lex : Lexer) (msg : String) : Token :=
  { type := TOK_ERROR, start := lex.pos, length := 0, line := lex.line,
    err_msg := some msg }

/-! ## Keyword table and `ident_type` (`lexer.c:18-65,136-162`) -/

def KEYWORDS : List (List Char × TokenType) :=
  [ ("component".toList, TOK_AT_COMPONENT),
    ("props".toList,     TOK_AT_PROPS),
    ("state".toList,     TOK_AT_STATE),
    ("style".toList,     TOK_AT_STYLE),
    ("template".toList,  TOK_AT_TEMPLATE),
    ("on".toList,        TOK_AT_ON),
    ("computed".toList,  TOK_AT_COMPUTED),
    ("int".toList,       TOK_INT),
    ("char".toList,      TOK_CHAR),
    ("bool".toList,      TOK_BOOL),
    ("float".toList,     TOK_FLOAT),
    ("double".toList,    TOK_DOUBLE),
    ("void".toList,      TOK_VOID),
    ("long".toList,      TOK_LONG),
    ("short".toList,     TOK_SHORT),
    ("unsigned".toList,  TOK_UNSIGNED),
    ("signed".toList,    TOK_SIGNED),
    ("struct".toList,    TOK_STRUCT),
    ("enum".toList,      TOK_ENUM),
    ("const".toList,     TOK_CONST),
    ("static".toList,    TOK_STATIC),
    ("extern".toList,    TOK_EXTERN),
    ("inline".toList,    TOK_INLINE),
    ("typedef".toList,   TOK_TYPEDEF),
    ("sizeof".toList,    TOK_SIZEOF),
    ("if".toList,        TOK_IF),
    ("else".toList,      TOK_ELSE),
    ("for".toList,       TOK_FOR),
    ("while".toList,     TOK_WHILE),
    ("do".toList,        TOK_DO),
    ("return".toList,    TOK_RETURN),
    ("break".toList,     TOK_BREAK),
    ("continue".toList,  TOK_CONTINUE),
    ("switch".toList,    TOK_SWITCH),
    ("case".toList,      TOK_CASE),
    ("default".toList,   TOK_DEFAULT),
    ("true".toList,      TOK_TRUE),
    ("false".toList,     TOK_FALSE),
    ("NULL".toList,      TOK_NULL),
    ("null".toList,      TOK_NULL),
    ("include".toList,   TOK_INCLUDE) ]

def isDirectiveTok : TokenType → Bool
  | TOK_AT_COMPONENT | TOK_AT_PROPS | TOK_AT_STATE | TOK_AT_STYLE
  | TOK_AT_TEMPLATE | TOK_AT_ON | TOK_AT_COMPUTED => true
  | _ => false

/-- The keyword-table loop of `ident_type`.  Note the exact control flow of
the C code: on a match with `after_at` set and a non-directive keyword, the
inner `switch` hits `default: break`, which exits the `switch` only — the
`for` loop then continues past the match and (keyword words being distinct)
falls off the end, returning `TOK_IDENT`. -/
def ident_type_go (w : List Char) (after_at : Bool) :
    List (List Char × TokenType) → TokenType
  | [] => TOK_IDENT
  | (word, t) :: ks =>
    if word = w then
      if after_at then
        if isDirectiveTok t then t else ident_type_go w after_at ks
      else
        if isDirectiveTok t then TOK_IDENT else t
    else ident_type_go w after_at ks

def ident_type (w : List Char) (after_at : Bool) : TokenType :=
  ident_type_go w after_at KEYWORDS

/-! ## Whitespace / comment skipping (`lexer.c:88-110`) -/

/-- Characters consumed by the `// ...` skip: everything up to (not
including) the newline or the end of input. -/
def lineCommentLen : List Char → Nat
  | [] => 0
  | c :: r => if c = '\n' then 0 else lineCommentLen r + 1

/-- Characters consumed after the opening `/*`: up to and including the
closing `*/`, or the whole rest if unterminated. -/
def blockCommentLen : List Char → Nat
  | [] => 0
  | '*' :: '/' :: _ => 2
  | _ :: r => blockCommentLen r + 1

/-- `skip_whitespace`: number of characters consumed (spaces, tabs, CR, LF,
and `//`/`/* */` comments).  The loop consumes at least one character per
iteration, so the fuel (seeded to the remaining length by `skip_ws_chars`) is
never exhausted; it only makes the recursion structural. -/
def skip_ws_go : Nat → List Char → Nat
  | 0, _ => 0
  | _, [] => 0
  | fuel+1, c :: r =>
    if c = ' ' || c = '\r' || c = '\t' || c = '\n' then skip_ws_go fuel r + 1
    else
      match c, r with
      | '/', '/' :: r2 =>
        let n := lineCommentLen r2
        skip_ws_go fuel (r2.drop n) + (n + 2)
      | '/', '*' :: r2 =>
        let n := blockCommentLen r2
        skip_ws_go fuel (r2.drop n) + (n + 2)
      | _, _ => 0

def skip_ws_chars (l : List Char) : Nat := skip_ws_go l.length l

def skip_whitespace (lex : Lexer) : Lexer := fwd lex (skip_ws_chars (rest lex))

/-! ## String literals (`lexer.c:166-198`) -/

def decode_escape : Char → Char
  | 'n' => '\n'
  | 't' => '\t'
  | 'r' => '\r'
  | '"' => '"'
  | '\\' => '\\'
  | '0' => Char.ofNat 0
  | e => e

/-- Body of `lex_string` after the opening `"`: the decoded contents plus the
number of characters consumed (including the closing quote), or `none` when
the literal is unterminated. -/
def scan_string_body : List Char → Option (List Char × Nat)
  | [] => none
  | '"' :: _ => some ([], 1)
  | '\\' :: [] => none
  | '\\' :: e :: r =>
    match scan_string_body r with
    | none => none
    | some (s, n) => some (decode_escape e :: s, n + 2)
  | c :: r =>
    match scan_string_body r with
    | none => none
    | some (s, n) => some (c :: s, n + 1)

/-! ## Numbers (`lexer.c:202-234`) -/

def hexDigitVal (c : Char) : Nat :=
  if isDigitC c then c.toNat - 48
  else if 65 ≤ c.toNat && c.toNat ≤ 70 then c.toNat - 55
  else c.toNat - 87

def hexVal (l : List Char) : Int := l.foldl (fun a c => a * 16 + (hexDigitVal c : Int)) 0

def decVal (l : List Char) : Int := l.foldl (fun a c => a * 10 + ((c.toNat - 48 : Nat) : Int)) 0

def isNumSuffix (c : Char) : Bool := c = 'f' || c = 'u' || c = 'l' || c = 'L'

/-- `lex_number`, entered with the first digit already consumed; `start` is the
offset of that digit.  Returns the token and the lexer past the number.
`TOK_FLOAT_LIT`'s `float_val` (computed by `atof`) is not modelled. -/
def lex_number (lex : Lexer) (start : Nat) : Token × Lexer :=
  let s := rest lex
  if charAt lex.src start = '0' && (charAt lex.src lex.pos = 'x' || charAt lex.src lex.pos = 'X') then
    let nx := countWhile isXdigitC (s.drop 1)
    let lex := fwd lex (1 + nx)
    let tok := make_token lex TOK_INT_LIT start
    ({ tok with int_val := hexVal ((lex.src.drop (start + 2)).take nx) }, lex)
  else
    let nd := countWhile isDigitC s
    let intDigits := (lex.src.drop start).take (1 + nd)
    let lex := fwd lex nd
    let s := rest lex
    let (isf1, frac) :=
      if charAt lex.src lex.pos = '.' && isDigitC (charAt lex.src (lex.pos + 1)) then
        (true, 1 + countWhile isDigitC (s.drop 1))
      else (false, 0)
    let lex := fwd lex frac
    let s := rest lex
    let (isf2, expn) :=
      if charAt lex.src lex.pos = 'e' || charAt lex.src lex.pos = 'E' then
        let sgn := if charAt lex.src (lex.pos + 1) = '+' || charAt lex.src (lex.pos + 1) = '-'
                   then 1 else 0
        (true, 1 + sgn + countWhile isDigitC (s.drop (1 + sgn)))
      else (false, 0)
    let lex := fwd lex expn
    let lex := fwd lex (countWhile isNumSuffix (rest lex))
    let is_float := isf1 || isf2
    let tok := make_token lex (if is_float then TOK_FLOAT_LIT else TOK_INT_LIT) start
    (if is_float then tok else { tok with int_val := decVal intDigits }, lex)

/-! ## Template-mode lexing (`lexer.c:238-315`) -/

/-- The quoted-run loop shared by template-mode `"`/`'` attribute values (and
textually identical to `collect_expr`'s string skip): after the opening quote,
the number of characters consumed up to and including the closing quote (a
`\ ` escape consumes the following character blindly). -/
def quotedRunLen (q : Char) : List Char → Nat
  | [] => 0
  | c :: r =>
    if c = q then 1
    else if c = '\\' then
      match r with
      | [] => 1
      | _ :: r2 => quotedRunLen q r2 + 2
    else quotedRunLen q r + 1

def isTemplIdentChar (c : Char) : Bool := isAlnumC c || c = '_' || c = '-'

def lex_template (lex0 : Lexer) : Token × Lexer :=
  let lex := skip_whitespace lex0
  let start := lex.pos
  match rest lex with
  | [] => (make_token lex TOK_EOF start, lex)
  | c :: r =>
    if c = '{' then
      let lex := { fwd lex 1 with expr_depth := lex.expr_depth + 1,
                                  mode := LEX_MODE_EXPR }
      (make_token lex TOK_LBRACE start, lex)
    else if c = '}' then
      let d := lex.template_depth - 1
      let lex := { fwd lex 1 with template_depth := d,
                                  mode := if d = 0 then LEX_MODE_C else lex.mode }
      (make_token lex TOK_RBRACE start, lex)
    else if c = '<' then let lex := fwd lex 1; (make_token lex TOK_LT start, lex)
    else if c = '>' then let lex := fwd lex 1; (make_token lex TOK_GT start, lex)
    else if c = '/' then let lex := fwd lex 1; (make_token lex TOK_SLASH start, lex)
    else if c = '=' then let lex := fwd lex 1; (make_token lex TOK_ASSIGN start, lex)
    else if c = '"' then
      let lex := fwd lex (1 + quotedRunLen '"' r)
      (make_token lex TOK_HTML_ATTR start, lex)
    else if c = '\'' then
      let lex := fwd lex (1 + quotedRunLen '\'' r)
      (make_token lex TOK_HTML_ATTR start, lex)
    else if isAlphaC c || c = '_' || c = '-' then
      let lex := fwd lex (1 + countWhile isTemplIdentChar r)
      (make_token lex TOK_IDENT start, lex)
    else
      -- lex_template_text: run until '<', '{', '}' or end of input
      let lex := fwd lex (countWhile (fun ch => !(ch = '<' || ch = '{' || ch = '}')) (c :: r))
      (make_token lex TOK_HTML_TEXT start, lex)

/-! ## Style-mode lexing (`lexer.c:319-360`) -/

/-- The balanced-brace loop of `lex_style`'s `{` branch (no string/comment
awareness): characters consumed after the opening `{` while the depth stays
positive (the final `}` is not counted here). -/
def braceScanLen : Nat → List Char → Nat
  | _, [] => 0
  | depth, c :: r =>
    let d := if c = '{' then depth + 1 else if c = '}' then depth - 1 else depth
    if d = 0 then 0 else braceScanLen d r + 1

/-- Length after dropping trailing characters satisfying `p`. -/
def trimTrailLen (p : Char → Bool) (l : List Char) : Nat :=
  (l.reverse.dropWhile p).length

def lex_style (lex0 : Lexer) : Token × Lexer :=
  let lex := skip_whitespace lex0
  let start := lex.pos
  match rest lex with
  | [] => (make_token lex TOK_EOF start, lex)
  | c :: r =>
    if c = '}' then
      let lex := { fwd lex 1 with mode := LEX_MODE_C }
      (make_token lex TOK_RBRACE start, lex)
    else if c = '{' then
      let inner := braceScanLen 1 r
      let lex := fwd lex (1 + inner)
      let lex := if charAt lex.src lex.pos = '}' then fwd lex 1 else lex
      (make_token lex TOK_HTML_ATTR start, lex)
    else if c = ':' then let lex := fwd lex 1; (make_token lex TOK_COLON start, lex)
    else if c = ';' then let lex := fwd lex 1; (make_token lex TOK_SEMICOLON start, lex)
    else
      let n := countWhile (fun ch => !(ch = ':' || ch = ';' || ch = '{' || ch = '}')) (c :: r)
      let lex := fwd lex n
      let tok := make_token lex TOK_HTML_ATTR start
      ({ tok with length := trimTrailLen isSpaceC ((lex.src.drop start).take n) }, lex)

/-! ## C-mode lexing and dispatch (`lexer.c:397-514,364-381`) -/

def isIdentChar (c : Char) : Bool := isAlnumC c || c = '_'

/-- The C-mode body of `lexer_next` (everything after the mode dispatch). -/
def lexC (lex0 : Lexer) : Token × Lexer :=
  let lex := skip_whitespace lex0
  let start := lex.pos
  match rest lex with
  | [] => (make_token lex TOK_EOF start, lex)
  | c :: r =>
    let lex := fwd lex 1
    if c = '#' then
      let nsp := countWhile (fun ch => isSpaceC ch && !(ch = '\n')) r
      let lex := fwd lex nsp
      if "include".toList.isPrefixOf (rest lex) then
        let lex := fwd lex 7
        (make_token lex TOK_INCLUDE start, lex)
      else
        (make_token lex TOK_HASH start, lex)
    else if c = '@' then
      let n := countWhile isIdentChar r
      let word := (lex.src.drop lex.pos).take n
      let lex := fwd lex n
      (make_token lex (ident_type word true) start, lex)
    else if isAlphaC c || c = '_' then
      let n := countWhile isIdentChar r
      let lex := fwd lex n
      let word := (lex.src.drop start).take (1 + n)
      (make_token lex (ident_type word false) start, lex)
    else if isDigitC c then
      lex_number lex start
    else if c = '"' then
      match scan_string_body r with
      | none =>
        let lex := fwd lex ((r.length : Nat))  -- cursor ran to the end of input
        (error_token lex "Unterminated string literal", lex)
      | some (decoded, n) =>
        let lex := fwd lex n
        ({ make_token lex TOK_STRING_LIT start with str_val := some decoded }, lex)
    else if c = '\'' then
      let ch := charAt lex.src lex.pos
      let (ch, lex) := if ch = '\\' then (charAt lex.src (lex.pos + 1), fwd lex 2)
                       else (ch, fwd lex 1)
      let lex := if charAt lex.src lex.pos = '\'' then fwd lex 1 else lex
      ({ make_token lex TOK_CHAR_LIT start with int_val := (ch.toNat : Int) }, lex)
    else
      let nxt := charAt lex.src lex.pos
      let two (t : TokenType) : Token × Lexer :=
        let lex := fwd lex 1; (make_token lex t start, lex)
      let one (t : TokenType) : Token × Lexer := (make_token lex t start, lex)
      if c = '{' then one TOK_LBRACE
      else if c = '}' then one TOK_RBRACE
      else if c = '(' then one TOK_LPAREN
      else if c = ')' then one TOK_RPAREN
      else if c = '[' then one TOK_LBRACKET
      else if c = ']' then one TOK_RBRACKET
      else if c = ';' then one TOK_SEMICOLON
      else if c = ',' then one TOK_COMMA
      else if c = '.' then one TOK_DOT
      else if c = ':' then one TOK_COLON
      else if c = '?' then one TOK_QUESTION
      else if c = '<' then
        if nxt = '<' then two TOK_LSHIFT else if nxt = '=' then two TOK_LT_EQ else one TOK_LT
      else if c = '>' then
        if nxt = '>' then two TOK_RSHIFT else if nxt = '=' then two TOK_GT_EQ else one TOK_GT
      else if c = '=' then
        if nxt = '=' then two TOK_EQEQ else one TOK_ASSIGN
      else if c = '!' then
        if nxt = '=' then two TOK_NEQ else one TOK_BANG
      else if c = '+' then
        if nxt = '+' then two TOK_PLUSPLUS else if nxt = '=' then two TOK_PLUSEQ else one TOK_PLUS
      else if c = '-' then
        if nxt = '-' then two TOK_MINUSMINUS else if nxt = '=' then two TOK_MINUSEQ
        else if nxt = '>' then two TOK_ARROW else one TOK_MINUS
      else if c = '*' then
        if nxt = '=' then two TOK_STAREQ else one TOK_STAR
      else if c = '/' then
        if nxt = '=' then two TOK_SLASHEQ else one TOK_SLASH
      else if c = '%' then
        if nxt = '=' then two TOK_PERCENTEQ else one TOK_PERCENT
      else if c = '&' then
        if nxt = '&' then two TOK_AND else if nxt = '=' then two TOK_AMPEQ else one TOK_AMPERSAND
      else if c = '|' then
        if nxt = '|' then two TOK_OR else if nxt = '=' then two TOK_PIPEEQ else one TOK_PIPE
      else if c = '^' then
        if nxt = '=' then two TOK_CARETEQ else one TOK_CARET
      else if c = '~' then one TOK_TILDE
      else (error_token lex "Unexpected character", lex)

/-- `lex_expr`: `{`/`}` adjust the expression depth; anything else is lexed by
the C-mode body (the C code flips `mode` to `LEX_MODE_C`, calls `lexer_next`
recursively — which then takes the C path — and flips the mode back). -/
def lex_expr (lex0 : Lexer) : Token × Lexer :=
  let lex := skip_whitespace lex0
  let start := lex.pos
  if charAt lex.src lex.pos = '{' then
    let lex := { fwd lex 1 with expr_depth := lex.expr_depth + 1 }
    (make_token lex TOK_LBRACE start, lex)
  else if charAt lex.src lex.pos = '}' then
    let d := lex.expr_depth - 1
    let lex := { fwd lex 1 with expr_depth := d,
                                mode := if d = 0 then LEX_MODE_TEMPLATE else lex.mode }
    (make_token lex TOK_RBRACE start, lex)
  else
    let (tok, lex) := lexC { lex with mode := LEX_MODE_C }
    (tok, { lex with mode := LEX_MODE_EXPR })

def lexer_next (lex : Lexer) : Token × Lexer :=
  match lex.mode with
  | LEX_MODE_TEMPLATE => lex_template lex
  | LEX_MODE_STYLE => lex_style lex
  | LEX_MODE_EXPR => lex_expr lex
  | LEX_MODE_C => lexC lex

def lexer_set_mode (lex : Lexer) (m : LexMode) : Lexer := { lex with mode := m }

/-! ## AST (`ast.h`)

`HtmlKind`: the `ast.h` in this snapshot declares four members, but
`parser.c:358-366` assigns `HTML_IF`/`HTML_FOR` and `binding_gen.c` switches
over them, so the compiled repository's enum necessarily carries those two
members as well (the spec's data model lists `If`/`For` node kinds
explicitly).  They are included here; everything else is from `ast.h`. -/

inductive TypeKind where
  | TY_INT | TY_CHAR | TY_BOOL | TY_FLOAT | TY_DOUBLE | TY_VOID
  | TY_LONG | TY_SHORT | TY_UNSIGNED | TY_STRUCT | TY_ENUM
  | TY_USER | TY_PTR | TY_ARRAY | TY_FN_PTR
deriving DecidableEq

inductive TypeRef where
  | mk (kind : TypeKind) (name : Option (List Char)) (inner : Option TypeRef)
       (array_size : Int) (is_const : Bool) (ret_type : Option TypeRef)
       (param_types : List TypeRef)

def ast_new_type (k : TypeKind) : TypeRef := .mk k none none (-1) false none []

structure Field where
  name : Option (List Char) := none
  type : Option TypeRef := none
  init_expr : Option (List Char) := none
  is_reactive : Bool := false

def ast_new_field : Field := {}

structure StyleRule where
  property : List Char
  value : List Char
  is_dynamic : Bool
deriving DecidableEq

structure Attribute where
  name : List Char
  value : Option (List Char) := none
  is_expr : Bool := false
deriving DecidableEq

inductive HtmlKind where
  | HTML_ELEMENT | HTML_TEXT | HTML_EXPR | HTML_COMPONENT | HTML_IF | HTML_FOR
deriving DecidableEq

inductive HtmlNode where
  | mk (kind : HtmlKind) (tag : Option (List Char)) (attrs : List Attribute)
       (children : List HtmlNode) (text : Option (List Char)) (self_closing : Bool)

def HtmlNode.kind : HtmlNode → HtmlKind | .mk k _ _ _ _ _ => k
def HtmlNode.tag : HtmlNode → Option (List Char) | .mk _ t _ _ _ _ => t
def HtmlNode.attrs : HtmlNode → List Attribute | .mk _ _ a _ _ _ => a
def HtmlNode.children : HtmlNode → List HtmlNode | .mk _ _ _ c _ _ => c
def HtmlNode.text : HtmlNode → Option (List Char) | .mk _ _ _ _ t _ => t
def HtmlNode.self_closing : HtmlNode → Bool | .mk _ _ _ _ _ s => s

structure EventHandler where
  event_name : Option (List Char) := none
  body : Option (List Char) := none
deriving DecidableEq

structure ComputedField where
  field : Field := {}
  expression : Option (List Char) := none

structure ComponentNode where
  name : Option (List Char) := none
  loc_line : Nat := 0
  props : List Field := []
  state : List Field := []
  style : List StyleRule := []
  handlers : List EventHandler := []
  computed : List ComputedField := []
  template_root : Option HtmlNode := none
  includes : List (List Char) := []
  state_used_in_template : List Bool := []
  props_used_in_template : List Bool := []

structure Program where
  components : List ComponentNode

/-! ## `strstr` -/

def strstrB : List Char → List Char → Bool
  | hay, pat =>
    if pat.isPrefixOf hay then true
    else match hay with
      | [] => false
      | _ :: r => strstrB r pat

/-! ## Parser state and primitives (`parser.c:14-61`) -/

structure ParserS where
  lex : Lexer
  current : Token
  previous : Token
  had_error : Bool
  panic_mode : Bool
  errors : Nat
deriving DecidableEq

/-- `error_at` (panic-mode suppression; the diagnostic text goes to stderr and
is not modelled; `errors` is the `p_error_count` global). -/
def error_at (p : ParserS) : ParserS :=
  if p.panic_mode then p
  else { p with panic_mode := true, had_error := true, errors := p.errors + 1 }

/-- The error-skipping loop of `advance`.  Every `TOK_ERROR` the lexer
produces has consumed at least one character, so `src.length + 1` rounds of
fuel always suffice to reach a non-error token. -/
def advanceGo : Nat → ParserS → ParserS
  | 0, p => p
  | fuel+1, p =>
    let (tok, lex') := lexer_next p.lex
    let p := { p with lex := lex', current := tok }
    if tok.type = TOK_ERROR then advanceGo fuel (error_at p) else p

def padvance (p : ParserS) : ParserS :=
  advanceGo (p.lex.src.length + 1) { p with previous := p.current }

def consume (p : ParserS) (t : TokenType) : ParserS :=
  if p.current.type = t then padvance p else error_at p

def check (p : ParserS) (t : TokenType) : Bool := p.current.type = t

def match_tok (p : ParserS) (t : TokenType) : Bool × ParserS :=
  if check p t then (true, padvance p) else (false, p)

/-- `tok_dup`: a copy of the token's source span. -/
def tok_dup (p : ParserS) (t : Token) : List Char :=
  (p.lex.src.drop t.start).take t.length

def dummy_token : Token := { type := TOK_EOF, start := 0, length := 0, line := 0 }

def parser_init (source : List Char) : ParserS :=
  padvance { lex := lexer_init source, current := dummy_token,
             previous := dummy_token, had_error := false, panic_mode := false,
             errors := 0 }

/-! ## Raw-span scans (`parser.c:308-356` and `parser.c:609-678`)

Both scans run directly on the character buffer with the lexer bypassed.
`collect_scan` (template/attribute expressions) skips only double-quoted
string literals; `handler_scan` (`@on` bodies) additionally skips
single-quoted char literals and `//`/`/* */` comments.  Each returns the
number of characters consumed while the brace depth stays positive (the
matching `}` is not counted). -/

def collect_scan_go : Nat → Nat → List Char → Nat
  | 0, _, _ => 0
  | _, _, [] => 0
  | fuel+1, depth, c :: r =>
    if c = '"' then
      let n := quotedRunLen '"' r
      collect_scan_go fuel depth (r.drop n) + (n + 1)
    else
      let d := if c = '{' then depth + 1 else if c = '}' then depth - 1 else depth
      if d = 0 then 0 else collect_scan_go fuel d r + 1

/-- The `collect_expr` scan loop; the fuel argument of `collect_scan_go` is
seeded to the remaining length and never runs out (each iteration consumes at
least one character). -/
def collect_scan (depth : Nat) (l : List Char) : Nat := collect_scan_go l.length depth l

def handler_scan_go : Nat → Nat → List Char → Nat
  | 0, _, _ => 0
  | _, _, [] => 0
  | fuel+1, depth, c :: r =>
    if c = '"' || c = '\'' then
      let n := quotedRunLen c r
      handler_scan_go fuel depth (r.drop n) + (n + 1)
    else if c = '/' && r.headD (Char.ofNat 0) = '*' then
      let n := blockCommentLen (r.drop 1)
      handler_scan_go fuel depth ((r.drop 1).drop n) + (n + 2)
    else if c = '/' && r.headD (Char.ofNat 0) = '/' then
      let n := lineCommentLen (r.drop 1)
      handler_scan_go fuel depth ((r.drop 1).drop n) + (n + 2)
    else
      let d := if c = '{' then depth + 1 else if c = '}' then depth - 1 else depth
      if d = 0 then 0 else handler_scan_go fuel d r + 1

/-- The `@on` handler-body scan loop (string/char literals and both comment
styles are skipped); fuel as in `collect_scan`. -/
def handler_scan (depth : Nat) (l : List Char) : Nat := handler_scan_go l.length depth l

/-- `collect_expr` (`parser.c:308-356`): called right after
`match_tok(TOK_LBRACE)`; resets the lexer cursor to just past the `{`
(`p->previous.start + 1`) — the `line` counter is NOT rewound, exactly as in
the C code — zeroes `expr_depth`, raw-scans to the matching `}`, consumes it,
restores `LEX_MODE_TEMPLATE` and re-syncs the lookahead token. -/
def collect_expr (p : ParserS) : List Char × ParserS :=
  let startPos := p.previous.start + 1
  let n := collect_scan 1 (p.lex.src.drop startPos)
  let endPos := startPos + n
  let afterPos := if charAt p.lex.src endPos = '}' then endPos + 1 else endPos
  let lineAfter := p.lex.line + ((p.lex.src.drop startPos).take n).count '\n'
  let lex := { p.lex with pos := afterPos, line := lineAfter, expr_depth := 0,
                          mode := LEX_MODE_TEMPLATE }
  ((p.lex.src.drop startPos).take n, padvance { p with lex := lex })

/-! ## Type and field parsing (`parser.c:66-233`) -/

def star_loop : Nat → ParserS → TypeRef → TypeRef × ParserS
  | 0, p, tr => (tr, p)
  | fuel+1, p, tr =>
    let (m, p) := match_tok p TOK_STAR
    if m then star_loop fuel p (TypeRef.mk .TY_PTR none (some tr) (-1) false none [])
    else (tr, p)

def parse_type (fuel : Nat) (p : ParserS) : TypeRef × ParserS :=
  let (isConst, p) := match_tok p TOK_CONST
  let (kind, nm, p) :=
    match p.current.type with
    | TOK_INT => (TypeKind.TY_INT, (none : Option (List Char)), padvance p)
    | TOK_CHAR => (.TY_CHAR, none, padvance p)
    | TOK_BOOL => (.TY_BOOL, none, padvance p)
    | TOK_FLOAT => (.TY_FLOAT, none, padvance p)
    | TOK_DOUBLE => (.TY_DOUBLE, none, padvance p)
    | TOK_VOID => (.TY_VOID, none, padvance p)
    | TOK_LONG => (.TY_LONG, none, padvance p)
    | TOK_SHORT => (.TY_SHORT, none, padvance p)
    | TOK_UNSIGNED => (.TY_UNSIGNED, none, padvance p)
    | TOK_IDENT => (.TY_USER, some (tok_dup p p.current), padvance p)
    | _ => (.TY_USER, none, error_at p)
  star_loop fuel p (TypeRef.mk kind nm none (-1) isConst none [])

def fp_params_loop : Nat → ParserS → List TypeRef → List TypeRef × ParserS
  | 0, p, acc => (acc, p)
  | fuel+1, p, acc =>
    if !(check p TOK_RPAREN) && !(check p TOK_EOF) then
      let (ty, p) := parse_type fuel p
      let p := if check p TOK_IDENT then padvance p else p
      let p := if !(check p TOK_RPAREN) then consume p TOK_COMMA else p
      fp_params_loop fuel p (acc ++ [ty])
    else (acc, p)

def skip_to_semi : Nat → ParserS → ParserS
  | 0, p => p
  | fuel+1, p =>
    if !(check p TOK_SEMICOLON) && !(check p TOK_EOF) then
      skip_to_semi fuel (padvance p)
    else p

def parse_field (fuel : Nat) (p : ParserS) : Field × ParserS :=
  let (ty, p) := parse_type fuel p
  let f : Field := { ast_new_field with type := some ty }
  if check p TOK_LPAREN then
    -- function-pointer form `ret (*name)(params)` (`parser.c:146-189`)
    let p := padvance p
    if check p TOK_STAR then
      let p := padvance p
      if check p TOK_IDENT then
        let fname := tok_dup p p.current
        let p := padvance p
        let p := consume p TOK_RPAREN
        let p := consume p TOK_LPAREN
        let (params, p) := fp_params_loop fuel p []
        let p := consume p TOK_RPAREN
        let fnty := TypeRef.mk .TY_FN_PTR none none (-1) false (some ty) params
        let p := consume p TOK_SEMICOLON
        ({ f with name := some fname, type := some fnty }, p)
      else (f, error_at p)
    else (f, error_at p)
  else if !(check p TOK_IDENT) then (f, error_at p)
  else
    let f := { f with name := some (tok_dup p p.current) }
    let p := padvance p
    let (f, p) :=
      let (m, p) := match_tok p TOK_LBRACKET
      if m then
        let (sz, p) :=
          if check p TOK_INT_LIT then (p.current.int_val, padvance p)
          else if check p TOK_IDENT then ((-1 : Int), padvance p)
          else ((-1 : Int), p)
        let p := consume p TOK_RBRACKET
        ({ f with type := some (TypeRef.mk .TY_ARRAY none f.type sz false none []) }, p)
      else (f, p)
    let (f, p) :=
      let (m, p) := match_tok p TOK_ASSIGN
      if m then
        let init_start := p.current.start
        let p := skip_to_semi fuel p
        let len := p.current.start - init_start
        ({ f with init_expr := some ((p.lex.src.drop init_start).take len) }, p)
      else (f, p)
    (f, consume p TOK_SEMICOLON)

/-! ## Style section (`parser.c:238-303`) -/

def style_value_skip : Nat → ParserS → ParserS
  | 0, p => p
  | fuel+1, p =>
    if !(check p TOK_SEMICOLON) && !(check p TOK_RBRACE) && !(check p TOK_EOF) then
      style_value_skip fuel (padvance p)
    else p

def style_loop : Nat → ParserS → List StyleRule → List StyleRule × ParserS
  | 0, p, acc => (acc, p)
  | fuel+1, p, acc =>
    if !(check p TOK_RBRACE) && !(check p TOK_EOF) then
      if !(check p TOK_HTML_ATTR) && !(check p TOK_IDENT) then (acc, p)
      else
        let prop := tok_dup p p.current
        let p := padvance p
        let p := consume p TOK_COLON
        let val_start := p.current.start
        let p := style_value_skip fuel p
        let vlen := p.current.start - val_start
        let raw := (p.lex.src.drop val_start).take vlen
        let v := raw.take (trimTrailLen (fun c => c = ' ' || c = '\t') raw)
        let dyn := strstrB v "props.".toList || strstrB v "state.".toList
        let (_, p) := match_tok p TOK_SEMICOLON
        style_loop fuel p (acc ++ [{ property := prop, value := v, is_dynamic := dyn }])
    else (acc, p)

def parse_style_section (fuel : Nat) (p : ParserS) (comp : ComponentNode) :
    ComponentNode × ParserS :=
  if p.current.type ≠ TOK_LBRACE then (comp, error_at p)
  else
    let p := { p with lex := lexer_set_mode p.lex LEX_MODE_STYLE }
    let p := padvance p
    let (rules, p) := style_loop fuel p []
    let p := if check p TOK_RBRACE then padvance p else p
    let p := { p with lex := lexer_set_mode p.lex LEX_MODE_C }
    ({ comp with style := rules }, p)

/-! ## Template parsing (`parser.c:308-534`) -/

mutual

def parse_element : Nat → ParserS → List Char → HtmlNode × ParserS
  | 0, p, tag => (HtmlNode.mk .HTML_ELEMENT (some tag) [] [] none false, p)
  | fuel+1, p, tag =>
    let kind :=
      if tag = "if".toList then HtmlKind.HTML_IF
      else if tag = "for".toList then .HTML_FOR
      else if 65 ≤ (charAt tag 0).toNat && (charAt tag 0).toNat ≤ 90 then .HTML_COMPONENT
      else .HTML_ELEMENT
    let (attrs, p) := attrs_loop fuel p []
    let (m, p) := match_tok p TOK_SLASH
    if m then
      let p := consume p TOK_GT
      (HtmlNode.mk kind (some tag) attrs [] none true, p)
    else
      let p := consume p TOK_GT
      let (children, p) := children_loop fuel p []
      (HtmlNode.mk kind (some tag) attrs children none false, p)

def attrs_loop : Nat → ParserS → List Attribute → List Attribute × ParserS
  | 0, p, acc => (acc, p)
  | fuel+1, p, acc =>
    if check p TOK_GT || check p TOK_SLASH || check p TOK_EOF then (acc, p)
    else if !(check p TOK_IDENT) && !(check p TOK_HTML_ATTR) then (acc, p)
    else
      let aname := tok_dup p p.current
      let p := padvance p
      let (m, p) := match_tok p TOK_ASSIGN
      let (value, isExpr, p) :=
        if m then
          let (mb, p) := match_tok p TOK_LBRACE
          if mb then
            let (v, p) := collect_expr p
            (some v, true, p)
          else if check p TOK_STRING_LIT then
            (p.current.str_val, false, padvance p)
          else if check p TOK_HTML_ATTR then
            let raw := tok_dup p p.current
            let v :=
              if raw.length ≥ 2 &&
                 (charAt raw 0 = '"' || charAt raw 0 = '\'') &&
                 charAt raw (raw.length - 1) = charAt raw 0 then
                (raw.drop 1).take (raw.length - 2)
              else raw
            (some v, false, padvance p)
          else (some (tok_dup p p.current), false, padvance p)
        else (none, false, p)
      attrs_loop fuel p (acc ++ [{ name := aname, value := value, is_expr := isExpr }])

def children_loop : Nat → ParserS → List HtmlNode → List HtmlNode × ParserS
  | 0, p, acc => (acc, p)
  | fuel+1, p, acc =>
    if check p TOK_EOF then (acc, p)
    else if check p TOK_LT then
      let p := padvance p
      let (m, p) := match_tok p TOK_SLASH
      if m then
        -- closing tag: its name is consumed but NOT validated (parser.c:435-439)
        let p := padvance p
        let p := consume p TOK_GT
        (acc, p)
      else if !(check p TOK_IDENT) then (acc, p)
      else
        let ctag := tok_dup p p.current
        let p := padvance p
        let (child, p) := parse_element fuel p ctag
        children_loop fuel p (acc ++ [child])
    else
      let (mb, p) := match_tok p TOK_LBRACE
      if mb then
        let (v, p) := collect_expr p
        children_loop fuel p (acc ++ [HtmlNode.mk .HTML_EXPR none [] [] (some v) false])
      else if check p TOK_HTML_TEXT || check p TOK_IDENT then
        let tnode := HtmlNode.mk .HTML_TEXT none [] [] (some (tok_dup p p.current)) false
        let p := padvance p
        children_loop fuel p (acc ++ [tnode])
      else (acc, p)

end

def skip_ws_text_loop : Nat → ParserS → ParserS
  | 0, p => p
  | fuel+1, p =>
    if check p TOK_HTML_TEXT && (tok_dup p p.current).all (fun c => isSpaceC c) then
      skip_ws_text_loop fuel (padvance p)
    else p

def parse_template_section (fuel : Nat) (p : ParserS) (comp : ComponentNode) :
    ComponentNode × ParserS :=
  if p.current.type ≠ TOK_LBRACE then (comp, error_at p)
  else
    let p := { p with lex := { p.lex with template_depth := 1,
                                          mode := LEX_MODE_TEMPLATE } }
    let p := padvance p
    let p := skip_ws_text_loop fuel p
    let (comp, p) :=
      if check p TOK_LT then
        let p := padvance p
        if check p TOK_IDENT then
          let tag := tok_dup p p.current
          let p := padvance p
          let (root, p) := parse_element fuel p tag
          ({ comp with template_root := some root }, p)
        else (comp, p)
      else (comp, p)
    let p := if check p TOK_RBRACE then padvance p else p
    (comp, { p with lex := lexer_set_mode p.lex LEX_MODE_C })

/-! ## Component and program parsing (`parser.c:539-797`) -/

def fields_loop : Nat → ParserS → List Field → List Field × ParserS
  | 0, p, acc => (acc, p)
  | fuel+1, p, acc =>
    if !(check p TOK_RBRACE) && !(check p TOK_EOF) then
      let (f, p) := parse_field fuel p
      fields_loop fuel { p with panic_mode := false } (acc ++ [f])
    else (acc, p)

def computed_loop : Nat → ParserS → List ComputedField → List ComputedField × ParserS
  | 0, p, acc => (acc, p)
  | fuel+1, p, acc =>
    if !(check p TOK_RBRACE) && !(check p TOK_EOF) then
      let (f, p) := parse_field fuel p
      let cf : ComputedField := { field := { f with init_expr := none },
                                  expression := f.init_expr }
      computed_loop fuel { p with panic_mode := false } (acc ++ [cf])
    else (acc, p)

def comp_loop : Nat → ParserS → ComponentNode → ComponentNode × ParserS
  | 0, p, comp => (comp, p)
  | fuel+1, p, comp =>
    if check p TOK_RBRACE || check p TOK_EOF then (comp, p)
    else
      let (mProps, p) := match_tok p TOK_AT_PROPS
      if mProps then
        let p := consume p TOK_LBRACE
        let (fs, p) := fields_loop fuel p []
        let p := consume p TOK_RBRACE
        comp_loop fuel p { comp with props := comp.props ++ fs }
      else
      let (mState, p) := match_tok p TOK_AT_STATE
      if mState then
        let p := consume p TOK_LBRACE
        let (fs, p) := fields_loop fuel p []
        let p := consume p TOK_RBRACE
        comp_loop fuel p { comp with state := comp.state ++ fs }
      else
      let (mStyle, p) := match_tok p TOK_AT_STYLE
      if mStyle then
        let (comp, p) := parse_style_section fuel p comp
        comp_loop fuel p comp
      else
      let (mOn, p) := match_tok p TOK_AT_ON
      if mOn then
        let p := consume p TOK_LPAREN
        if !(check p TOK_IDENT) then (comp, error_at p)   -- `break` out of the loop
        else
          let ev_name := tok_dup p p.current
          let p := padvance p
          let p := consume p TOK_RPAREN
          if p.current.type ≠ TOK_LBRACE then (comp, error_at p)  -- `break`
          else
            -- raw handler-body capture (parser.c:609-678); the cursor is set
            -- to just past the `{` and the scan walks the char buffer
            let body_start := p.current.start + 1
            let n := handler_scan 1 (p.lex.src.drop body_start)
            let endPos := body_start + n
            let afterPos := if charAt p.lex.src endPos = '}' then endPos + 1 else endPos
            let lineAfter := p.lex.line + ((p.lex.src.drop body_start).take n).count '\n'
            let body := (p.lex.src.drop body_start).take n
            let p := { p with lex := { p.lex with pos := afterPos, line := lineAfter } }
            let comp := { comp with handlers := comp.handlers ++
                            [{ event_name := some ev_name, body := some body }] }
            comp_loop fuel (padvance p) comp
      else
      let (mComputed, p) := match_tok p TOK_AT_COMPUTED
      if mComputed then
        let p := consume p TOK_LBRACE
        let (cfs, p) := computed_loop fuel p []
        let p := consume p TOK_RBRACE
        comp_loop fuel p { comp with computed := comp.computed ++ cfs }
      else
      let (mTempl, p) := match_tok p TOK_AT_TEMPLATE
      if mTempl then
        let (comp, p) := parse_template_section fuel p comp
        comp_loop fuel p comp
      else
        let p := error_at p
        let p := padvance p
        comp_loop fuel { p with panic_mode := false } comp

def parse_component (fuel : Nat) (p : ParserS) : Option ComponentNode × ParserS :=
  if !(check p TOK_IDENT) then (none, error_at p)
  else
    let comp : ComponentNode := { name := some (tok_dup p p.current),
                                  loc_line := p.current.line }
    let p := padvance p
    let p := consume p TOK_LBRACE
    let (comp, p) := comp_loop fuel p comp
    (some comp, consume p TOK_RBRACE)

def include_skip_loop : Nat → ParserS → ParserS
  | 0, p => p
  | fuel+1, p =>
    if !(check p TOK_EOF) && p.current.line = p.previous.line then
      include_skip_loop fuel (padvance p)
    else p

def typedef_skip_loop : Nat → Int → ParserS → ParserS
  | 0, _, p => p
  | fuel+1, depth, p =>
    if check p TOK_EOF then p
    else
      let depth := if check p TOK_LBRACE then depth + 1 else depth
      let depth := if check p TOK_RBRACE then depth - 1 else depth
      if check p TOK_SEMICOLON && depth ≤ 0 then padvance p
      else typedef_skip_loop fuel depth (padvance p)

def prog_loop : Nat → ParserS → List ComponentNode → List ComponentNode × ParserS
  | 0, p, acc => (acc, p)
  | fuel+1, p, acc =>
    if check p TOK_EOF then (acc, p)
    else
      let (mh, p) := match_tok p TOK_HASH
      let (mi, p) := if mh then (false, p) else match_tok p TOK_INCLUDE
      if mh || mi then
        prog_loop fuel (include_skip_loop fuel p) acc
      else
      let (mt, p) := match_tok p TOK_TYPEDEF
      if mt then
        prog_loop fuel { typedef_skip_loop fuel 0 p with panic_mode := false } acc
      else
      let (mc, p) := match_tok p TOK_AT_COMPONENT
      if mc then
        let (copt, p) := parse_component fuel p
        let acc := match copt with | some c => acc ++ [c] | none => acc
        prog_loop fuel { p with panic_mode := false } acc
      else
        let p := error_at p
        let p := padvance p
        prog_loop fuel { p with panic_mode := false } acc

def parser_parse (fuel : Nat) (p : ParserS) : Program × ParserS :=
  let (cs, p) := prog_loop fuel p []
  ({ components := cs }, p)

/-- Front-end driver: init the lexer and parser and parse the whole file. -/
def parse_source (fuel : Nat) (source : List Char) : Program × ParserS :=
  parser_parse fuel (parser_init source)

/-! ## Semantic analyzer (`analyzer.c`) -/

structure AnalysisResult where
  error_count : Nat
  warning_count : Nat
deriving DecidableEq

structure AnalyzerCtx where
  comp : ComponentNode
  errors : Nat
  warnings : Nat

def ana_error (ctx : AnalyzerCtx) : AnalyzerCtx := { ctx with errors := ctx.errors + 1 }

def ana_warn (ctx : AnalyzerCtx) : AnalyzerCtx := { ctx with warnings := ctx.warnings + 1 }

/-- `%s` of a NULL pointer is rendered `(null)` by glibc's `snprintf`; no
analyzed component ever reaches this case with a NULL field name in the
developments below. -/
def nameOrNull : Option (List Char) → List Char
  | some n => n
  | none => "(null)".toList

/-- The `snprintf(pattern, sizeof(pattern), "state.%s", name)` pattern: the
buffer is `char[256]`, so the formatted text is truncated to 255 chars. -/
def depPattern (pfx : List Char) (name : Option (List Char)) : List Char :=
  (pfx ++ nameOrNull name).take 255

/-- One of the two `for` loops in `scan_expr_for_deps` (`analyzer.c:43-60`):
walk fields with index `i` into the used array, setting `is_reactive` and
`used[i]` whenever `strstr(expr, pattern)` hits. -/
def scan_fields (e pfx : List Char) :
    List Field → List Bool → Nat → List Field × List Bool
  | [], used, _ => ([], used)
  | f :: fs, used, i =>
    let hit := strstrB e (depPattern pfx f.name)
    let f := if hit then { f with is_reactive := true } else f
    let used := if hit then used.set i true else used
    let (fs', used') := scan_fields e pfx fs used (i + 1)
    (f :: fs', used')

def scan_expr_for_deps (ctx : AnalyzerCtx) : Option (List Char) → AnalyzerCtx
  | none => ctx
  | some e =>
    let c := ctx.comp
    let (st, stUsed) := scan_fields e "state.".toList c.state c.state_used_in_template 0
    let (pr, prUsed) := scan_fields e "props.".toList c.props c.props_used_in_template 0
    { ctx with comp := { c with state := st, state_used_in_template := stUsed,
                                props := pr, props_used_in_template := prUsed } }

/-! `walk_html` (`analyzer.c:65-91`).  The C `switch` has cases for
`HTML_EXPR`, `HTML_ELEMENT`/`HTML_COMPONENT` and `HTML_TEXT` only; an
`HTML_IF` or `HTML_FOR` node matches no case, so the switch is a no-op for
it: neither its attributes nor its children are visited. -/

mutual

def walk_html (ctx : AnalyzerCtx) (node : HtmlNode) : AnalyzerCtx :=
  match node with
  | .mk kind _ attrs children text _ =>
    match kind with
    | .HTML_EXPR => scan_expr_for_deps ctx text
    | .HTML_ELEMENT => walk_children (walk_attrs ctx attrs) children
    | .HTML_COMPONENT => walk_children (walk_attrs ctx attrs) children
    | .HTML_TEXT => ctx
    | .HTML_IF => ctx
    | .HTML_FOR => ctx

def walk_attrs (ctx : AnalyzerCtx) : List Attribute → AnalyzerCtx
  | [] => ctx
  | a :: rest =>
    walk_attrs (if a.is_expr then scan_expr_for_deps ctx a.value else ctx) rest

def walk_children (ctx : AnalyzerCtx) : List HtmlNode → AnalyzerCtx
  | [] => ctx
  | n :: rest => walk_children (walk_html ctx n) rest

end

/-- One iteration of the `check_event_handlers` loop (`analyzer.c:98-106`):
error on a missing name or body, then scan the body (when present). -/
def handlerStep (ctx : AnalyzerCtx) (h : EventHandler) : AnalyzerCtx :=
  let ctx := if h.event_name = none || h.body = none then ana_error ctx else ctx
  match h.body with
  | some b => scan_expr_for_deps ctx (some b)
  | none => ctx

def check_event_handlers (ctx0 : AnalyzerCtx) : AnalyzerCtx :=
  ctx0.comp.handlers.foldl handlerStep ctx0

/-- One iteration of the `check_computed` loop (`analyzer.c:113-121`). -/
def computedStep (ctx : AnalyzerCtx) (cf : ComputedField) : AnalyzerCtx :=
  let ctx := if cf.expression = none then ana_error ctx else ctx
  scan_expr_for_deps ctx cf.expression

def check_computed (ctx0 : AnalyzerCtx) : AnalyzerCtx :=
  ctx0.comp.computed.foldl computedStep ctx0

def check_unused (ctx0 : AnalyzerCtx) : AnalyzerCtx :=
  let c := ctx0.comp
  let ctx := (List.range c.state.length).foldl (fun ctx i =>
    if c.state_used_in_template.getD i false then ctx else ana_warn ctx) ctx0
  (List.range c.props.length).foldl (fun ctx i =>
    if c.props_used_in_template.getD i false then ctx else ana_warn ctx) ctx

def check_template (ctx : AnalyzerCtx) : AnalyzerCtx :=
  if ctx.comp.template_root.isNone then ana_error ctx else ctx

/-- The two `calloc((count + 1), sizeof(int))` lines of `analyze_component`
(`analyzer.c:160-161`): zeroed arrays of `count + 1` entries each. -/
def alloc_reactive_flags (c : ComponentNode) : ComponentNode :=
  { c with state_used_in_template := List.replicate (c.state.length + 1) false,
           props_used_in_template := List.replicate (c.props.length + 1) false }

def dynStyleB (v : List Char) : Bool :=
  strstrB v "props.".toList || strstrB v "state.".toList

def analyze_component (c : ComponentNode) : AnalysisResult × ComponentNode :=
  let c := alloc_reactive_flags c
  let ctx : AnalyzerCtx := { comp := c, errors := 0, warnings := 0 }
  let ctx := check_template ctx
  let ctx := check_event_handlers ctx
  let ctx := check_computed ctx
  let ctx := match ctx.comp.template_root with
             | some root => walk_html ctx root
             | none => ctx
  let ctx := check_unused ctx
  let comp := ctx.comp
  let comp := { comp with style := comp.style.map (fun r =>
      if strstrB r.value "props.".toList || strstrB r.value "state.".toList then
        { r with is_dynamic := true }
      else r) }
  ({ error_count := ctx.errors, warning_count := ctx.warnings }, comp)

def analyze_program (prog : Program) : AnalysisResult × Program :=
  let out := prog.components.foldl
    (fun (acc : AnalysisResult × List ComponentNode) c =>
      let (r, c') := analyze_component c
      ({ error_count := acc.1.error_count + r.error_count,
         warning_count := acc.1.warning_count + r.warning_count },
       acc.2 ++ [c']))
    ({ error_count := 0, warning_count := 0 }, [])
  (out.1, { components := out.2 })

/-- End-to-end pipeline on one source file: parse then analyze. -/
def compile_front (fuel : Nat) (source : List Char) :
    Program × AnalysisResult × Nat :=
  let (prog, p) := parse_source fuel source
  let (res, prog') := analyze_program prog
  (prog', res, p.errors)

/-! ## Observation helpers for the theorems -/

/-- Run the lexer `n` times, collecting each token's type together with the
lexer mode in force right after it was produced. -/
def lexRunTrace : Nat → Lexer → List (TokenType × LexMode)
  | 0, _ => []
  | n+1, lex =>
    let (tok, lex') := lexer_next lex
    (tok.type, lex'.mode) :: lexRunTrace n lex'

/-- Run the lexer `n` times, collecting each token's type and source span. -/
def lexRunToks : Nat → Lexer → List (TokenType × Nat × Nat)
  | 0, _ => []
  | n+1, lex =>
    let (tok, lex') := lexer_next lex
    (tok.type, tok.start, tok.length) :: lexRunToks n lex'

/-- The lexer state after `n` calls of `lexer_next`. -/
def lexStepN : Nat → Lexer → Lexer
  | 0, lex => lex
  | n+1, lex => lexStepN n (lexer_next lex).2

/-- The texts that the analyzer's template walk feeds to
`scan_expr_for_deps`, in traversal order (expression-valued attributes of
Element/Component nodes, Expr node texts; nothing from Text/If/For nodes). -/
def attrsTexts (attrs : List Attribute) : List (List Char) :=
  attrs.filterMap (fun a => if a.is_expr then a.value else none)

mutual

def walkTexts : HtmlNode → List (List Char)
  | .mk kind _ attrs children text _ =>
    match kind with
    | .HTML_EXPR => (match text with | some t => [t] | none => [])
    | .HTML_ELEMENT => attrsTexts attrs ++ childTexts children
    | .HTML_COMPONENT => attrsTexts attrs ++ childTexts children
    | .HTML_TEXT => []
    | .HTML_IF => []
    | .HTML_FOR => []

def childTexts : List HtmlNode → List (List Char)
  | [] => []
  | n :: rest => walkTexts n ++ childTexts rest

end

/-- All expression texts the analyzer scans for a component, in scan order:
handler bodies, computed expressions, then the template walk. -/
def scannedTexts (c : ComponentNode) : List (List Char) :=
  c.handlers.filterMap (·.body) ++ c.computed.filterMap (·.expression) ++
  (match c.template_root with | some r => walkTexts r | none => [])

/-- Does some text in `texts` contain the dependency pattern for `f`? -/
def hitB (texts : List (List Char)) (pfx : List Char) (f : Field) : Bool :=
  texts.any (fun t => strstrB t (depPattern pfx f.name))

def stateHit (c : ComponentNode) (f : Field) : Bool :=
  hitB (scannedTexts c) "state.".toList f

def propsHit (c : ComponentNode) (f : Field) : Bool :=
  hitB (scannedTexts c) "props.".toList f

/-- The evolution of a used-flags array under one `scan_fields` pass: OR the
hit bits into positions `i, i+1, …`. -/
def orHits : List Bool → Nat → List Bool → List Bool
  | used, _, [] => used
  | used, i, h :: hs => orHits (if h then used.set i true else used) (i + 1) hs

/-- The component part of `scan_expr_for_deps` on a present expression. -/
def scanC (e : List Char) (c : ComponentNode) : ComponentNode :=
  let (st, stUsed) := scan_fields e "state.".toList c.state c.state_used_in_template 0
  let (pr, prUsed) := scan_fields e "props.".toList c.props c.props_used_in_template 0
  { c with state := st, state_used_in_template := stUsed,
           props := pr, props_used_in_template := prUsed }

/-- Scanning a list of texts in order (the component part). -/
def scanAllC (texts : List (List Char)) (c : ComponentNode) : ComponentNode :=
  texts.foldl (fun c t => scanC t c) c

def malformedHandlerCount (c : ComponentNode) : Nat :=
  c.handlers.countP (fun h => h.event_name = none || h.body = none)

def missingComputedCount (c : ComponentNode) : Nat :=
  c.computed.countP (fun cf => cf.expression = none)

/-! ## Concrete example inputs used by the theorems -/

/-- The spec's mode-switching example `@template \x7b <div>\x7bstate.x\x7d</div> \x7d`. -/
def c3_src : List Char := "@template \x7b <div>\x7bstate.x\x7d</div> \x7d".toList

def c3_lex0 : Lexer := lexer_init c3_src

def c3_lex1 : Lexer := (lexer_next c3_lex0).2

/-- The lexer right after `@template \x7b`, with `template_depth` seeded to 1 and
the mode switched to template, exactly as `parse_template_section` does. -/
def c3_seed : Lexer :=
  { (lexer_next c3_lex1).2 with template_depth := 1, mode := LEX_MODE_TEMPLATE }

/-- `@state \x7b int count; \x7d @template \x7b <span>\x7bstate.count\x7d</span> \x7d` (the spec's
reactivity-propagation example). -/
def c4_src : List Char :=
  "@component T \x7b @state \x7b int count; \x7d @template \x7b <span>\x7bstate.count\x7d</span> \x7d \x7d".toList

/-- A field named `count` referenced only through the longer identifier
`state.counter`: substring matching still marks it used. -/
def c4_boundary_src : List Char :=
  "@component T \x7b @state \x7b int count; \x7d @template \x7b <span>\x7bstate.counter\x7d</span> \x7d \x7d".toList

/-- A component with state and props but no `@template` section. -/
def c6_src : List Char :=
  "@component T \x7b @props \x7b int a; \x7d @state \x7b int x; \x7d \x7d".toList

/-- `@state \x7b int unused; \x7d @template \x7b <div>static</div> \x7d` (the spec's
unused-field example). -/
def c7_src : List Char :=
  "@component T \x7b @state \x7b int unused; \x7d @template \x7b <div>static</div> \x7d \x7d".toList

/-- `@style \x7b color: props.theme; \x7d` (dynamic) next to a template. -/
def c8_dyn_src : List Char :=
  "@component T \x7b @style \x7b color: props.theme; \x7d @template \x7b <div>hi</div> \x7d \x7d".toList

/-- `@style \x7b color: red; \x7d` (static). -/
def c8_static_src : List Char :=
  "@component T \x7b @style \x7b color: red; \x7d @template \x7b <div>hi</div> \x7d \x7d".toList

/-- A state field referenced only inside an `<if>` condition, plus one
referenced only inside a descendant of the `<if>`. -/
def c1_src : List Char :=
  "@component T \x7b @state \x7b int count; int depth; \x7d @template \x7b <if condition=\x7bstate.count > 0\x7d><span>\x7bstate.depth\x7d</span></if> \x7d \x7d".toList

/-- A state field referenced only inside a `<for>`'s `each` attribute. -/
def c1_for_src : List Char :=
  "@component T \x7b @state \x7b int items; \x7d @template \x7b <for each=\x7bstate.items\x7d as=\"it\"><span>x</span></for> \x7d \x7d".toList

/-- `@on(click) \x7b printf("\x7d"); x++; \x7d` — the spec's handler-capture example. -/
def c2_handler_src : List Char :=
  "@component T \x7b @on(click) \x7b printf(\"\x7d\"); x++; \x7d @template \x7b <div>x</div> \x7d \x7d".toList

/-- Handler bodies containing a brace inside a char literal, a line comment
and a block comment. -/
def c2_charlit_src : List Char :=
  "@component T \x7b @on(click) \x7b c = '\x7d'; x++; \x7d @template \x7b <div>x</div> \x7d \x7d".toList

def c2_linecomment_src : List Char :=
  "@component T \x7b @on(click) \x7b // \x7d\n x++; \x7d @template \x7b <div>x</div> \x7d \x7d".toList

def c2_blockcomment_src : List Char :=
  "@component T \x7b @on(click) \x7b /* \x7d */ x++; \x7d @template \x7b <div>x</div> \x7d \x7d".toList

/-- A template expression whose only `\x7d`-in-literal protection is the
double-quoted string skip of `collect_expr`. -/
def c2_expr_string_src : List Char :=
  "@component T \x7b @template \x7b <div>\x7b\"\x7d\" + x\x7d</div> \x7d \x7d".toList

/-- A template expression with `'\x7d'` in a char literal: `collect_expr` does
NOT skip char literals, so the depth count is perturbed. -/
def c2_expr_charlit_src : List Char :=
  "@component T \x7b @template \x7b <div>\x7b'\x7d' + x\x7d</div> \x7d \x7d".toList

/-- `<div a='x'/>` vs `<div a="x"/>`. -/
def c10_single_src : List Char :=
  "@component T \x7b @template \x7b <div a='x'/> \x7d \x7d".toList

def c10_double_src : List Char :=
  "@component T \x7b @template \x7b <div a=\"x\"/> \x7d \x7d".toList

/-- Shorthand for the analyzed first component of a compiled source. -/
def frontComp (source : List Char) : ComponentNode :=
  ((compile_front 200 source).1.components).headD {}

def frontRes (source : List Char) : AnalysisResult := (compile_front 200 source).2.1

def frontParseErrors (source : List Char) : Nat := (compile_front 200 source).2.2

/-- The component as it stands after all of `analyze_component`'s dependency
scanning: the reactivity arrays are allocated, then every scanned text is
folded through the component part of `scan_expr_for_deps`. -/
def analyzedComp (c : ComponentNode) : ComponentNode :=
  scanAllC (scannedTexts c) (alloc_reactive_flags c)

/-- A small literal component (one state field `count`, a template consisting
of a single Expr node `state.count`) used to instantiate the universally
quantified reactivity theorems at a concrete input. -/
def c4_witness_comp : ComponentNode :=
  { state := [{ name := some "count".toList }],
    template_root :=
      some (.mk .HTML_EXPR none [] [] (some "state.count".toList) false) }

/-- A bare style section source, used to instantiate the style-dynamism
theorems at a concrete parse. -/
def c8_witness_src : List Char := "\x7b color: props.theme; \x7d".toList

/-! # General lemmas -/

theorem countWhile_take (p : Char → Bool) :
    ∀ l : List Char, l.take (countWhile p l) = l.takeWhile p := by
  intro l
  induction l with
  | nil => rfl
  | cons c r ih =>
    by_cases h : p c
    · simp [countWhile, h, List.takeWhile_cons, ih]
    · simp [countWhile, h, List.takeWhile_cons]

theorem head?_eq_cons {α} {l : List α} {c : α} (h : l.head? = some c) :
    ∃ r, l = c :: r := by
  cases l with
  | nil => simp at h
  | cons a r =>
    simp only [List.head?_cons, Option.some.injEq] at h
    exact ⟨r, by rw [h]⟩

theorem ident_type_go_not_mem (w : List Char) (b : Bool) :
    ∀ ks : List (List Char × TokenType), (∀ kt ∈ ks, kt.1 ≠ w) →
      ident_type_go w b ks = TOK_IDENT := by
  intro ks
  induction ks with
  | nil => intro _; rfl
  | cons kt rest ih =>
    intro h
    have h1 : kt.1 ≠ w := h kt (List.mem_cons_self kt rest)
    obtain ⟨word, t⟩ := kt
    simp only [ident_type_go, if_neg h1]
    exact ih (fun p hp => h p (List.mem_cons_of_mem _ hp))

@[simp] theorem fwd_src (lex : Lexer) (n : Nat) : (fwd lex n).src = lex.src := rfl
@[simp] theorem fwd_mode (lex : Lexer) (n : Nat) : (fwd lex n).mode = lex.mode := rfl
@[simp] theorem fwd_expr_depth (lex : Lexer) (n : Nat) :
    (fwd lex n).expr_depth = lex.expr_depth := rfl
@[simp] theorem fwd_template_depth (lex : Lexer) (n : Nat) :
    (fwd lex n).template_depth = lex.template_depth := rfl
@[simp] theorem fwd_pos (lex : Lexer) (n : Nat) : (fwd lex n).pos = lex.pos + n := rfl

@[simp] theorem skip_whitespace_src (lex : Lexer) :
    (skip_whitespace lex).src = lex.src := rfl
@[simp] theorem skip_whitespace_mode (lex : Lexer) :
    (skip_whitespace lex).mode = lex.mode := rfl
@[simp] theorem skip_whitespace_expr_depth (lex : Lexer) :
    (skip_whitespace lex).expr_depth = lex.expr_depth := rfl
@[simp] theorem skip_whitespace_template_depth (lex : Lexer) :
    (skip_whitespace lex).template_depth = lex.template_depth := rfl

theorem getD_eq_headD_drop {α} (l : List α) (i : Nat) (d : α) :
    l.getD i d = (l.drop i).headD d := by
  induction l generalizing i with
  | nil => cases i <;> rfl
  | cons a r ih =>
    cases i with
    | zero => rfl
    | succ j => exact ih j

theorem charAt_rest_head (lex : Lexer) {c : Char} (h : (rest lex).head? = some c) :
    charAt lex.src lex.pos = c := by
  obtain ⟨r, hr⟩ := head?_eq_cons h
  unfold charAt
  rw [getD_eq_headD_drop]
  rw [show lex.src.drop lex.pos = c :: r from hr]
  rfl

theorem rest_tail (lex : Lexer) {c : Char} {r : List Char} (h : rest lex = c :: r) :
    lex.src.drop (lex.pos + 1) = r := by
  have : lex.src.drop (lex.pos + 1) = (lex.src.drop lex.pos).drop 1 := by
    rw [List.drop_drop]
  rw [this, show lex.src.drop lex.pos = c :: r from h, List.drop_one, List.tail_cons]

/-! # Claim theorems -/

/-- C5, counterexample: the claim says non-directive keywords (e.g. `int`)
are keyword tokens regardless of a preceding `@`.  In fact `@int` lexes as a
single `TOK_IDENT` token: in `ident_type` with `after_at` set, a matching
non-directive keyword hits the inner switch's `default: break`, the keyword
loop runs past it, and the function falls through to `TOK_IDENT`. -/
theorem C5_directive_keywords_counterexample :
    (lexer_next (lexer_init "@int".toList)).1.type = TOK_IDENT ∧
    (lexer_next (lexer_init "int".toList)).1.type = TOK_INT ∧
    TOK_IDENT ≠ TOK_INT := ⟨by decide, by decide, by decide⟩

/-- C5, amended: directive keywords lex as their `TOK_AT_*` token exactly when
immediately preceded by `@` and as plain `TOK_IDENT` otherwise (so
`state.count` is identifier-dot-identifier); a NON-directive keyword lexes as
its keyword token only when NOT preceded by `@` — `@int` falls through
`ident_type`'s keyword loop and lexes as a single `TOK_IDENT`.  Code-mode
tokenization consults `ident_type` with `after_at` set exactly in the `@`
branch. -/
theorem C5_directive_keywords :
    (∀ wt ∈ KEYWORDS,
      (isDirectiveTok wt.2 = true →
        ident_type wt.1 true = wt.2 ∧ ident_type wt.1 false = TOK_IDENT) ∧
      (isDirectiveTok wt.2 = false →
        ident_type wt.1 true = TOK_IDENT ∧ ident_type wt.1 false = wt.2)) ∧
    (∀ w : List Char, (∀ kt ∈ KEYWORDS, kt.1 ≠ w) → ∀ b, ident_type w b = TOK_IDENT) ∧
    (∀ lex : Lexer, lex.mode = LEX_MODE_C →
      (rest (skip_whitespace lex)).head? = some '@' →
      (lexer_next lex).1.type =
        ident_type ((rest (skip_whitespace lex)).tail.takeWhile isIdentChar) true) ∧
    (∀ lex : Lexer, lex.mode = LEX_MODE_C →
      ∀ c, (rest (skip_whitespace lex)).head? = some c →
        (isAlphaC c || c = '_') = true →
        (lexer_next lex).1.type =
          ident_type ((rest (skip_whitespace lex)).takeWhile isIdentChar) false) ∧
    lexRunToks 4 (lexer_init "state.count".toList) =
      [(TOK_IDENT, 0, 5), (TOK_DOT, 5, 1), (TOK_IDENT, 6, 5), (TOK_EOF, 11, 0)] ∧
    (lexer_next (lexer_init "@state".toList)).1.type = TOK_AT_STATE := by
  refine ⟨by decide, ?_, ?_, ?_, by decide, by decide⟩
  · intro w h b
    exact ident_type_go_not_mem w b KEYWORDS h
  · intro lex hm hc
    obtain ⟨r, hr⟩ := head?_eq_cons hc
    have hnext : lexer_next lex = lexC lex := by
      unfold lexer_next; rw [hm]
    have hdropr : (skip_whitespace lex).src.drop ((skip_whitespace lex).pos + 1) = r :=
      rest_tail _ hr
    rw [hnext]
    simp only [lexC, hr]
    simp only [fwd_src, fwd_pos, skip_whitespace_src, hdropr]
    simp [make_token]
    have hdropr' : List.drop ((skip_whitespace lex).pos + 1) lex.src = r := hdropr
    rw [hdropr', countWhile_take]
  · intro lex hm c hc hcl
    obtain ⟨r, hr⟩ := head?_eq_cons hc
    have hnext : lexer_next lex = lexC lex := by
      unfold lexer_next; rw [hm]
    have hdropr : (skip_whitespace lex).src.drop ((skip_whitespace lex).pos + 1) = r :=
      rest_tail _ hr
    have hsharp : ¬ (c = '#') := by
      rintro rfl; exact absurd hcl (by decide)
    have hat : ¬ (c = '@') := by
      rintro rfl; exact absurd hcl (by decide)
    have hident : isIdentChar c = true := by
      rcases Bool.or_eq_true_iff.mp hcl with h | h
      · simp [isIdentChar, isAlnumC, h]
      · simp [isIdentChar, isAlnumC, h]
    rw [hnext]
    simp only [lexC, hr]
    simp only [fwd_src, fwd_pos, skip_whitespace_src, hdropr]
    simp [make_token, hsharp, hat, hcl]
    have hdrop0 : List.drop (skip_whitespace lex).pos lex.src = c :: r := hr
    rw [hdrop0, Nat.add_comm 1 (countWhile isIdentChar r), List.take_succ_cons,
       countWhile_take]
    simp [List.takeWhile_cons, hident]

/-- Witness for C5: the amended statement applied at concrete inputs. -/
theorem C5_directive_keywords_witness :
    ident_type "state".toList true = TOK_AT_STATE ∧
    ident_type "state".toList false = TOK_IDENT ∧
    ident_type "foo".toList true = TOK_IDENT ∧
    (lexer_next (lexer_init "@state".toList)).1.type =
      ident_type ((rest (skip_whitespace (lexer_init "@state".toList))).tail.takeWhile
        isIdentChar) true ∧
    (lexer_next (lexer_init "state.count".toList)).1.type =
      ident_type ((rest (skip_whitespace (lexer_init "state.count".toList))).takeWhile
        isIdentChar) false := by
  obtain ⟨h1, h2, h3, h4, -, -⟩ := C5_directive_keywords
  have ha := h1 ("state".toList, TOK_AT_STATE) (by decide)
  exact ⟨(ha.1 (by decide)).1, (ha.1 (by decide)).2,
         h2 "foo".toList (by decide) true,
         h3 _ rfl (by decide),
         h4 _ rfl 's' (by decide) (by decide)⟩

/-- C3: the lexer's `mode` is a brace-driven state machine — in template mode
`\x7b` switches to expression mode and bumps `expr_depth`; in expression mode a
`\x7d` decrements `expr_depth` and reverts to template mode when it reaches
zero; in template mode a `\x7d` decrements `template_depth` and reverts to code
mode when it reaches zero.  On `@template \x7b <div>\x7bstate.x\x7d</div> \x7d` with
`template_depth` seeded to 1 (as `parse_template_section` does), the trace
passes Code → Template → Expression → Template → Code, and the mode is Code
once the whole span is consumed. -/
theorem C3_mode_state_machine :
    (∀ lex : Lexer, lex.mode = LEX_MODE_TEMPLATE →
      (rest (skip_whitespace lex)).head? = some '{' →
      (lexer_next lex).1.type = TOK_LBRACE ∧
      (lexer_next lex).2.mode = LEX_MODE_EXPR ∧
      (lexer_next lex).2.expr_depth = lex.expr_depth + 1) ∧
    (∀ lex : Lexer, lex.mode = LEX_MODE_EXPR →
      (rest (skip_whitespace lex)).head? = some '}' →
      (lexer_next lex).1.type = TOK_RBRACE ∧
      (lexer_next lex).2.expr_depth = lex.expr_depth - 1 ∧
      (lexer_next lex).2.mode =
        (if lex.expr_depth - 1 = 0 then LEX_MODE_TEMPLATE else LEX_MODE_EXPR)) ∧
    (∀ lex : Lexer, lex.mode = LEX_MODE_TEMPLATE →
      (rest (skip_whitespace lex)).head? = some '}' →
      (lexer_next lex).1.type = TOK_RBRACE ∧
      (lexer_next lex).2.template_depth = lex.template_depth - 1 ∧
      (lexer_next lex).2.mode =
        (if lex.template_depth - 1 = 0 then LEX_MODE_C else LEX_MODE_TEMPLATE)) ∧
    ((lexer_next c3_lex0).1.type = TOK_AT_TEMPLATE ∧
     (lexer_next c3_lex0).2.mode = LEX_MODE_C ∧
     (lexer_next c3_lex1).1.type = TOK_LBRACE ∧
     (lexer_next c3_lex1).2.mode = LEX_MODE_C ∧
     lexRunTrace 14 c3_seed =
       [(TOK_LT, LEX_MODE_TEMPLATE), (TOK_IDENT, LEX_MODE_TEMPLATE),
        (TOK_GT, LEX_MODE_TEMPLATE), (TOK_LBRACE, LEX_MODE_EXPR),
        (TOK_IDENT, LEX_MODE_EXPR), (TOK_DOT, LEX_MODE_EXPR),
        (TOK_IDENT, LEX_MODE_EXPR), (TOK_RBRACE, LEX_MODE_TEMPLATE),
        (TOK_LT, LEX_MODE_TEMPLATE), (TOK_SLASH, LEX_MODE_TEMPLATE),
        (TOK_IDENT, LEX_MODE_TEMPLATE), (TOK_GT, LEX_MODE_TEMPLATE),
        (TOK_RBRACE, LEX_MODE_C), (TOK_EOF, LEX_MODE_C)] ∧
     (lexStepN 13 c3_seed).mode = LEX_MODE_C ∧
     (lexStepN 13 c3_seed).pos = c3_src.length) := by
  refine ⟨?_, ?_, ?_, by decide, by decide, by decide, by decide, by decide,
          by decide, by decide⟩
  · intro lex hm hh
    obtain ⟨r, hr⟩ := head?_eq_cons hh
    have hnext : lexer_next lex = lex_template lex := by
      unfold lexer_next; rw [hm]
    rw [hnext]
    simp only [lex_template, hr]
    simp [make_token]
  · intro lex hm hh
    have hca : charAt (skip_whitespace lex).src (skip_whitespace lex).pos = '}' :=
      charAt_rest_head _ hh
    have hnext : lexer_next lex = lex_expr lex := by
      unfold lexer_next; rw [hm]
    rw [hnext]
    simp only [lex_expr, hca]
    simp [make_token, hm]
  · intro lex hm hh
    obtain ⟨r, hr⟩ := head?_eq_cons hh
    have hnext : lexer_next lex = lex_template lex := by
      unfold lexer_next; rw [hm]
    rw [hnext]
    simp only [lex_template, hr]
    simp [make_token, hm]

/-- Witness for C3: the three transition rules applied at concrete lexers. -/
theorem C3_mode_state_machine_witness :
    ((lexer_next { src := "\x7bx".toList, pos := 0, line := 1,
                   mode := LEX_MODE_TEMPLATE, template_depth := 1,
                   expr_depth := 0 }).2.mode = LEX_MODE_EXPR ∧
     (lexer_next { src := "\x7bx".toList, pos := 0, line := 1,
                   mode := LEX_MODE_TEMPLATE, template_depth := 1,
                   expr_depth := 0 }).2.expr_depth = 1) ∧
    (lexer_next { src := "\x7dy".toList, pos := 0, line := 1,
                  mode := LEX_MODE_EXPR, template_depth := 1,
                  expr_depth := 1 }).2.mode = LEX_MODE_TEMPLATE ∧
    (lexer_next { src := "\x7d".toList, pos := 0, line := 1,
                  mode := LEX_MODE_TEMPLATE, template_depth := 1,
                  expr_depth := 0 }).2.mode = LEX_MODE_C := by
  obtain ⟨h1, h2, h3, -⟩ := C3_mode_state_machine
  have w1 := h1 { src := "\x7bx".toList, pos := 0, line := 1,
                  mode := LEX_MODE_TEMPLATE, template_depth := 1,
                  expr_depth := 0 } rfl (by decide)
  have w2 := h2 { src := "\x7dy".toList, pos := 0, line := 1,
                  mode := LEX_MODE_EXPR, template_depth := 1,
                  expr_depth := 1 } rfl (by decide)
  have w3 := h3 { src := "\x7d".toList, pos := 0, line := 1,
                  mode := LEX_MODE_TEMPLATE, template_depth := 1,
                  expr_depth := 0 } rfl (by decide)
  exact ⟨⟨w1.2.1, w1.2.2⟩, by simpa using w2.2.2, by simpa using w3.2.2⟩

/-- The quoted-run loop stops exactly at the closing quote when the body
contains neither the quote character nor a backslash. -/
theorem quotedRunLen_append (q : Char) (v post : List Char)
    (hv : ∀ c ∈ v, ¬(c = q) ∧ ¬(c = '\\')) :
    quotedRunLen q (v ++ q :: post) = v.length + 1 := by
  induction v with
  | nil =>
    show quotedRunLen q (q :: post) = 1
    cases post <;> simp [quotedRunLen]
  | cons c r ih =>
    obtain ⟨h1, h2⟩ := hv c (List.mem_cons_self c r)
    have ihr := ih (fun x hx => hv x (List.mem_cons_of_mem c hx))
    show quotedRunLen q (c :: (r ++ q :: post)) = r.length + 1 + 1
    cases hrp : r ++ q :: post with
    | nil => exact absurd hrp (by simp)
    | cons a rr =>
      rw [← hrp]
      have : quotedRunLen q (c :: (r ++ q :: post)) =
          quotedRunLen q (r ++ q :: post) + 1 := by
        rw [hrp]
        simp [quotedRunLen, h1, h2]
      rw [this, ihr]


/-- C10: in template mode a single-quoted attribute value lexes — exactly
like a double-quoted one — as a single `TOK_HTML_ATTR` token spanning the
quotes, and the element parser strips the matching surrounding quotes, so the
stored attribute is `\x7bvalue-without-quotes, is_expr = 0\x7d`; `<div a='x'/>`
and `<div a="x"/>` produce identical parse results. -/
theorem C10_single_quoted_attr :
    (∀ (lex : Lexer) (q : Char) (v post : List Char),
      (q = '\'' ∨ q = '"') →
      lex.mode = LEX_MODE_TEMPLATE →
      rest (skip_whitespace lex) = q :: (v ++ q :: post) →
      (∀ c ∈ v, ¬(c = q) ∧ ¬(c = '\\')) →
      (lexer_next lex).1.type = TOK_HTML_ATTR ∧
      (lexer_next lex).1.start = (skip_whitespace lex).pos ∧
      (lexer_next lex).1.length = v.length + 2 ∧
      (lexer_next lex).2.pos = (skip_whitespace lex).pos + (v.length + 2)) ∧
    ((frontComp c10_single_src).template_root.map HtmlNode.attrs =
      some [{ name := "a".toList, value := some "x".toList, is_expr := false }] ∧
     (frontComp c10_single_src).template_root.map HtmlNode.tag = some (some "div".toList) ∧
     (frontComp c10_single_src).template_root.map HtmlNode.kind = some .HTML_ELEMENT ∧
     (frontComp c10_single_src).template_root.map HtmlNode.self_closing = some true ∧
     frontParseErrors c10_single_src = 0 ∧
     (frontComp c10_double_src).template_root.map HtmlNode.attrs =
       some [{ name := "a".toList, value := some "x".toList, is_expr := false }] ∧
     (frontComp c10_double_src).template_root.map HtmlNode.tag = some (some "div".toList) ∧
     (frontComp c10_double_src).template_root.map HtmlNode.kind = some .HTML_ELEMENT ∧
     (frontComp c10_double_src).template_root.map HtmlNode.self_closing = some true ∧
     frontParseErrors c10_double_src = 0) := by
  refine ⟨?_, by decide, by decide, by decide, by decide, by decide, by decide,
          by decide, by decide, by decide, by decide⟩
  intro lex q v post hq hmode hrest hv
  have hnext : lexer_next lex = lex_template lex := by
    unfold lexer_next; rw [hmode]
  have hqlen : quotedRunLen q (v ++ q :: post) = v.length + 1 :=
    quotedRunLen_append q v post hv
  rw [hnext]
  rcases hq with rfl | rfl
  · simp only [lex_template, hrest]
    simp [make_token, hqlen]
    omega
  · simp only [lex_template, hrest]
    simp [make_token, hqlen]
    omega

/-- Witness for C10: the quoted-run rule applied to a concrete lexer
positioned at `'x'` in template mode, for both quote characters. -/
theorem C10_single_quoted_attr_witness :
    (lexer_next { src := "'x' ".toList, pos := 0, line := 1,
                  mode := LEX_MODE_TEMPLATE, template_depth := 1,
                  expr_depth := 0 }).1.type = TOK_HTML_ATTR ∧
    (lexer_next { src := "'x' ".toList, pos := 0, line := 1,
                  mode := LEX_MODE_TEMPLATE, template_depth := 1,
                  expr_depth := 0 }).1.length = 3 ∧
    (lexer_next { src := "\"x\" ".toList, pos := 0, line := 1,
                  mode := LEX_MODE_TEMPLATE, template_depth := 1,
                  expr_depth := 0 }).1.length = 3 := by
  obtain ⟨h, -⟩ := C10_single_quoted_attr
  have w1 := h { src := "'x' ".toList, pos := 0, line := 1,
                 mode := LEX_MODE_TEMPLATE, template_depth := 1, expr_depth := 0 }
               '\'' ['x'] [' '] (Or.inl rfl) rfl (by decide) (by decide)
  have w2 := h { src := "\"x\" ".toList, pos := 0, line := 1,
                 mode := LEX_MODE_TEMPLATE, template_depth := 1, expr_depth := 0 }
               '"' ['x'] [' '] (Or.inr rfl) rfl (by decide) (by decide)
  exact ⟨w1.1, w1.2.2.1, w2.2.2.1⟩

/-- If position `n` of `l` holds `\x7d`, then `l` splits as the first `n`
characters, the `\x7d`, and the remainder — so a capture that takes the first
`n` characters and then consumes the `\x7d` reproduces the source exactly. -/
theorem split_at_rbrace (l : List Char) (n : Nat) (h : l[n]? = some '}') :
    l = l.take n ++ '}' :: l.drop (n + 1) := by
  have hn : n < l.length := by
    by_contra hge
    rw [List.getElem?_eq_none (Nat.le_of_not_lt hge)] at h
    cases h
  have hd : l.drop n = l[n] :: l.drop (n + 1) := List.drop_eq_getElem_cons hn
  have hval : l[n] = '}' := by
    rw [List.getElem?_eq_getElem hn] at h
    exact Option.some.inj h
  conv_lhs => rw [← List.take_append_drop n l]
  rw [hd, hval]

/-- C2, counterexample: the claim covers `collect_expr` captures too, but
`collect_expr` skips only double-quoted string literals — a `\x7d` inside a
char literal decrements its depth count, so `\x7b'\x7d' + x\x7d` captures `'` instead
of the full text between the braces. -/
theorem C2_raw_capture_counterexample :
    ((frontComp c2_expr_charlit_src).template_root.map
        (fun r => r.children.map HtmlNode.text) = some [some "'".toList]) ∧
    ¬ ((frontComp c2_expr_charlit_src).template_root.map
        (fun r => r.children.map HtmlNode.text) = some [some "'\x7d' + x".toList]) := by
  exact ⟨by decide, by decide⟩

/-- C2, amended: the `@on` handler-body capture tracks brace depth while
skipping string literals, char literals and `//`/`/* */` comments, and the
captured body is exactly the source text between the braces (surrounding
whitespace included) — `@on(click) \x7b printf("\x7d"); x++; \x7d` captures
` printf("\x7d"); x++; `.  `collect_expr` (template/attribute expressions)
skips only double-quoted string literals; char literals and comments do
perturb its depth count. -/
theorem C2_raw_capture :
    (∀ l : List Char, l[handler_scan 1 l]? = some '}' →
      l = l.take (handler_scan 1 l) ++ '}' :: l.drop (handler_scan 1 l + 1)) ∧
    (∀ l : List Char, l[collect_scan 1 l]? = some '}' →
      l = l.take (collect_scan 1 l) ++ '}' :: l.drop (collect_scan 1 l + 1)) ∧
    (frontComp c2_handler_src).handlers =
      [{ event_name := some "click".toList,
         body := some " printf(\"\x7d\"); x++; ".toList }] ∧
    (frontComp c2_charlit_src).handlers =
      [{ event_name := some "click".toList,
         body := some " c = '\x7d'; x++; ".toList }] ∧
    (frontComp c2_linecomment_src).handlers =
      [{ event_name := some "click".toList,
         body := some " // \x7d\n x++; ".toList }] ∧
    (frontComp c2_blockcomment_src).handlers =
      [{ event_name := some "click".toList,
         body := some " /* \x7d */ x++; ".toList }] ∧
    ((frontComp c2_expr_string_src).template_root.map
        (fun r => r.children.map HtmlNode.text) =
      some [some "\"\x7d\" + x".toList]) := by
  refine ⟨fun l h => split_at_rbrace l _ h, fun l h => split_at_rbrace l _ h,
          by decide, by decide, by decide, by decide, by decide⟩

/-- Witness for C2: the split identity applied to concrete capture inputs. -/
theorem C2_raw_capture_witness :
    (" x++; \x7d!".toList.take
        (handler_scan 1 " x++; \x7d!".toList) ++ '}' :: "!".toList =
      " x++; \x7d!".toList) ∧
    ("y\x7d!".toList.take (collect_scan 1 "y\x7d!".toList) ++ '}' :: "!".toList =
      "y\x7d!".toList) := by
  obtain ⟨h1, h2, -⟩ := C2_raw_capture
  constructor
  · have := h1 " x++; \x7d!".toList (by decide)
    conv_rhs => rw [this]
    decide
  · have := h2 "y\x7d!".toList (by decide)
    conv_rhs => rw [this]
    decide

/-- C1: the analyzer's `walk_html` switch has no case for `HTML_IF`/`HTML_FOR`
nodes, so their condition/iterable attribute expressions are NOT scanned and
their children are NOT recursed into — a state field referenced only inside
an `if` condition, a `for` iterable, or a descendant of an `if`/`for` node
stays unused/non-reactive and draws a spurious unused-field warning, contrary
to the spec (and to the parser and code generator, which treat `if`/`for`
nodes as first-class). -/
theorem C1_if_for_nodes_not_walked :
    (∀ (ctx : AnalyzerCtx) (tag : Option (List Char)) (attrs : List Attribute)
        (children : List HtmlNode) (text : Option (List Char)) (sc : Bool),
      walk_html ctx (.mk .HTML_IF tag attrs children text sc) = ctx ∧
      walk_html ctx (.mk .HTML_FOR tag attrs children text sc) = ctx) ∧
    ((frontComp c1_src).template_root.map HtmlNode.kind = some .HTML_IF ∧
     (frontComp c1_src).template_root.map HtmlNode.attrs =
       some [{ name := "condition".toList, value := some "state.count > 0".toList,
               is_expr := true }] ∧
     (frontComp c1_src).state.map Field.name =
       [some "count".toList, some "depth".toList] ∧
     (frontComp c1_src).state_used_in_template = [false, false, false] ∧
     (frontComp c1_src).state.map Field.is_reactive = [false, false] ∧
     frontRes c1_src = ⟨0, 2⟩ ∧
     frontParseErrors c1_src = 0) ∧
    ((frontComp c1_for_src).template_root.map HtmlNode.kind = some .HTML_FOR ∧
     (frontComp c1_for_src).state_used_in_template = [false, false] ∧
     frontRes c1_for_src = ⟨0, 1⟩) := by
  refine ⟨fun ctx tag attrs children text sc => ⟨rfl, rfl⟩,
          ⟨by decide, by decide, by decide, by decide, by decide, by decide,
           by decide⟩,
          ⟨by decide, by decide, by decide⟩⟩

/-! ## Analyzer decomposition lemmas -/

theorem scan_some_eq (ctx : AnalyzerCtx) (e : List Char) :
    scan_expr_for_deps ctx (some e) = ⟨scanC e ctx.comp, ctx.errors, ctx.warnings⟩ := rfl

theorem scan_fields_eq (e pfx : List Char) :
    ∀ (fs : List Field) (used : List Bool) (i : Nat),
      scan_fields e pfx fs used i =
        (fs.map (fun f => if strstrB e (depPattern pfx f.name) then
                            { f with is_reactive := true } else f),
         orHits used i (fs.map (fun f => strstrB e (depPattern pfx f.name)))) := by
  intro fs
  induction fs with
  | nil => intro used i; rfl
  | cons f fs ih =>
    intro used i
    simp only [scan_fields, List.map_cons, orHits, ih]

theorem orHits_length : ∀ (hits used : List Bool) (i : Nat),
    (orHits used i hits).length = used.length := by
  intro hits
  induction hits with
  | nil => intro used i; rfl
  | cons h hs ih =>
    intro used i
    simp only [orHits]
    rw [ih]
    cases h <;> simp [List.length_set]

theorem orHits_getD : ∀ (hits used : List Bool) (i j : Nat), j < used.length →
    (orHits used i hits).getD j false =
      (used.getD j false || (decide (i ≤ j) && hits.getD (j - i) false)) := by
  intro hits
  induction hits with
  | nil =>
    intro used i j hj
    simp [orHits]
  | cons h hs ih =>
    intro used i j hj
    have hlen : j < (if h = true then used.set i true else used).length := by
      cases h <;> simpa [List.length_set] using hj
    simp only [orHits]
    rw [ih _ (i + 1) j hlen]
    rcases Nat.lt_trichotomy j i with hlt | heq | hgt
    · have h1 : decide (i ≤ j) = false := by simp; omega
      have h2 : decide (i + 1 ≤ j) = false := by simp; omega
      have h3 : (if h = true then used.set i true else used).getD j false =
          used.getD j false := by
        cases h
        · rfl
        · show (used.set i true).getD j false = used.getD j false
          rw [List.getD_eq_getElem?_getD, List.getD_eq_getElem?_getD,
             List.getElem?_set, if_neg (show ¬ i = j by omega)]
      rw [h1, h2, h3]
      simp
    · subst heq
      have h2 : decide (j + 1 ≤ j) = false := by simp
      rw [h2]
      simp only [Bool.false_and, Bool.or_false]
      cases h
      · show used.getD j false =
            (used.getD j false || decide (j ≤ j) && (false :: hs).getD (j - j) false)
        simp
      · show (used.set j true).getD j false =
            (used.getD j false || decide (j ≤ j) && (true :: hs).getD (j - j) false)
        rw [List.getD_eq_getElem?_getD, List.getElem?_set, if_pos rfl, if_pos hj]
        simp
    · have h1 : decide (i ≤ j) = true := by simp; omega
      have h2 : decide (i + 1 ≤ j) = true := by simp; omega
      have h3 : (if h = true then used.set i true else used).getD j false =
          used.getD j false := by
        cases h
        · rfl
        · show (used.set i true).getD j false = used.getD j false
          rw [List.getD_eq_getElem?_getD, List.getD_eq_getElem?_getD,
             List.getElem?_set, if_neg (show ¬ i = j by omega)]
      have h4 : (h :: hs).getD (j - i) false = hs.getD (j - (i + 1)) false := by
        rw [show j - i = (j - (i + 1)) + 1 by omega]
        rfl
      rw [h1, h2, h3, h4]

theorem getD_map_lt {α β} (l : List α) (g : α → β) (j : Nat) (hj : j < l.length)
    (d : β) : (l.map g).getD j d = g l[j] := by
  rw [List.getD_eq_getElem?_getD, List.getElem?_map, List.getElem?_eq_getElem hj]
  rfl

theorem scanC_eq (e : List Char) (c : ComponentNode) :
    scanC e c =
      { c with
        state := c.state.map (fun f =>
          if strstrB e (depPattern "state.".toList f.name) then
            { f with is_reactive := true } else f),
        state_used_in_template := orHits c.state_used_in_template 0
          (c.state.map (fun f => strstrB e (depPattern "state.".toList f.name))),
        props := c.props.map (fun f =>
          if strstrB e (depPattern "props.".toList f.name) then
            { f with is_reactive := true } else f),
        props_used_in_template := orHits c.props_used_in_template 0
          (c.props.map (fun f => strstrB e (depPattern "props.".toList f.name))) } := by
  simp [scanC, scan_fields_eq]

theorem scanAllC_cons (t : List Char) (ts : List (List Char)) (c : ComponentNode) :
    scanAllC (t :: ts) c = scanAllC ts (scanC t c) := rfl

theorem scanAllC_append (t1 t2 : List (List Char)) (c : ComponentNode) :
    scanAllC (t1 ++ t2) c = scanAllC t2 (scanAllC t1 c) :=
  List.foldl_append _ _ _ _

theorem scanC_handlers (e : List Char) (c : ComponentNode) :
    (scanC e c).handlers = c.handlers := by rw [scanC_eq]

theorem scanC_computed (e : List Char) (c : ComponentNode) :
    (scanC e c).computed = c.computed := by rw [scanC_eq]

theorem scanC_template_root (e : List Char) (c : ComponentNode) :
    (scanC e c).template_root = c.template_root := by rw [scanC_eq]

theorem scanC_style (e : List Char) (c : ComponentNode) :
    (scanC e c).style = c.style := by rw [scanC_eq]

theorem scanC_state_names (e : List Char) (c : ComponentNode) :
    (scanC e c).state.map Field.name = c.state.map Field.name := by
  rw [scanC_eq]
  show (c.state.map _).map Field.name = _
  rw [List.map_map]
  exact List.map_congr_left (fun f _ => by simp only [Function.comp_apply]; split <;> rfl)

theorem scanC_props_names (e : List Char) (c : ComponentNode) :
    (scanC e c).props.map Field.name = c.props.map Field.name := by
  rw [scanC_eq]
  show (c.props.map _).map Field.name = _
  rw [List.map_map]
  exact List.map_congr_left (fun f _ => by simp only [Function.comp_apply]; split <;> rfl)

theorem scanC_state_length (e : List Char) (c : ComponentNode) :
    (scanC e c).state.length = c.state.length := by
  rw [scanC_eq]; exact List.length_map _ _

theorem scanC_props_length (e : List Char) (c : ComponentNode) :
    (scanC e c).props.length = c.props.length := by
  rw [scanC_eq]; exact List.length_map _ _

theorem scanC_state_used_length (e : List Char) (c : ComponentNode) :
    (scanC e c).state_used_in_template.length = c.state_used_in_template.length := by
  rw [scanC_eq]; exact orHits_length _ _ _

theorem scanC_props_used_length (e : List Char) (c : ComponentNode) :
    (scanC e c).props_used_in_template.length = c.props_used_in_template.length := by
  rw [scanC_eq]; exact orHits_length _ _ _

theorem scanC_state_used_getD (e : List Char) (c : ComponentNode) (j : Nat)
    (hj : j < c.state.length)
    (hlen : c.state.length ≤ c.state_used_in_template.length) :
    (scanC e c).state_used_in_template.getD j false =
      (c.state_used_in_template.getD j false ||
       strstrB e (depPattern "state.".toList ((c.state.map Field.name).getD j none))) := by
  rw [scanC_eq]
  show (orHits c.state_used_in_template 0 _).getD j false = _
  rw [orHits_getD _ _ 0 j (Nat.lt_of_lt_of_le hj hlen)]
  simp only [Nat.sub_zero]
  rw [getD_map_lt _ _ j hj, getD_map_lt _ _ j hj]
  simp

theorem scanC_props_used_getD (e : List Char) (c : ComponentNode) (j : Nat)
    (hj : j < c.props.length)
    (hlen : c.props.length ≤ c.props_used_in_template.length) :
    (scanC e c).props_used_in_template.getD j false =
      (c.props_used_in_template.getD j false ||
       strstrB e (depPattern "props.".toList ((c.props.map Field.name).getD j none))) := by
  rw [scanC_eq]
  show (orHits c.props_used_in_template 0 _).getD j false = _
  rw [orHits_getD _ _ 0 j (Nat.lt_of_lt_of_le hj hlen)]
  simp only [Nat.sub_zero]
  rw [getD_map_lt _ _ j hj, getD_map_lt _ _ j hj]
  simp

theorem scanAllC_handlers (texts : List (List Char)) :
    ∀ c, (scanAllC texts c).handlers = c.handlers := by
  induction texts with
  | nil => intro c; rfl
  | cons t ts ih => intro c; rw [scanAllC_cons, ih, scanC_handlers]

theorem scanAllC_computed (texts : List (List Char)) :
    ∀ c, (scanAllC texts c).computed = c.computed := by
  induction texts with
  | nil => intro c; rfl
  | cons t ts ih => intro c; rw [scanAllC_cons, ih, scanC_computed]

theorem scanAllC_template_root (texts : List (List Char)) :
    ∀ c, (scanAllC texts c).template_root = c.template_root := by
  induction texts with
  | nil => intro c; rfl
  | cons t ts ih => intro c; rw [scanAllC_cons, ih, scanC_template_root]

theorem scanAllC_style (texts : List (List Char)) :
    ∀ c, (scanAllC texts c).style = c.style := by
  induction texts with
  | nil => intro c; rfl
  | cons t ts ih => intro c; rw [scanAllC_cons, ih, scanC_style]

theorem scanAllC_state_length (texts : List (List Char)) :
    ∀ c, (scanAllC texts c).state.length = c.state.length := by
  induction texts with
  | nil => intro c; rfl
  | cons t ts ih => intro c; rw [scanAllC_cons, ih, scanC_state_length]

theorem scanAllC_props_length (texts : List (List Char)) :
    ∀ c, (scanAllC texts c).props.length = c.props.length := by
  induction texts with
  | nil => intro c; rfl
  | cons t ts ih => intro c; rw [scanAllC_cons, ih, scanC_props_length]

theorem scanAllC_state_used_length (texts : List (List Char)) :
    ∀ c, (scanAllC texts c).state_used_in_template.length =
      c.state_used_in_template.length := by
  induction texts with
  | nil => intro c; rfl
  | cons t ts ih => intro c; rw [scanAllC_cons, ih, scanC_state_used_length]

theorem scanAllC_props_used_length (texts : List (List Char)) :
    ∀ c, (scanAllC texts c).props_used_in_template.length =
      c.props_used_in_template.length := by
  induction texts with
  | nil => intro c; rfl
  | cons t ts ih => intro c; rw [scanAllC_cons, ih, scanC_props_used_length]

theorem hitB_cons (t : List Char) (ts : List (List Char)) (pfx : List Char)
    (f : Field) :
    hitB (t :: ts) pfx f = (strstrB t (depPattern pfx f.name) || hitB ts pfx f) := by
  simp [hitB]

/-- The used flag at a position accumulates the per-text hits on that
field's name. -/
theorem scanAllC_state_used_getD (texts : List (List Char)) :
    ∀ (c : ComponentNode) (j : Nat), j < c.state.length →
      c.state.length ≤ c.state_used_in_template.length →
      (scanAllC texts c).state_used_in_template.getD j false =
        (c.state_used_in_template.getD j false ||
         texts.any (fun t =>
           strstrB t (depPattern "state.".toList ((c.state.map Field.name).getD j none)))) := by
  induction texts with
  | nil => intro c j hj hlen; simp [scanAllC]
  | cons t ts ih =>
    intro c j hj hlen
    rw [scanAllC_cons]
    rw [ih (scanC t c) j (by rw [scanC_state_length]; exact hj)
        (by rw [scanC_state_length, scanC_state_used_length]; exact hlen)]
    rw [scanC_state_used_getD t c j hj hlen, scanC_state_names]
    simp [Bool.or_assoc]

theorem scanAllC_props_used_getD (texts : List (List Char)) :
    ∀ (c : ComponentNode) (j : Nat), j < c.props.length →
      c.props.length ≤ c.props_used_in_template.length →
      (scanAllC texts c).props_used_in_template.getD j false =
        (c.props_used_in_template.getD j false ||
         texts.any (fun t =>
           strstrB t (depPattern "props.".toList ((c.props.map Field.name).getD j none)))) := by
  induction texts with
  | nil => intro c j hj hlen; simp [scanAllC]
  | cons t ts ih =>
    intro c j hj hlen
    rw [scanAllC_cons]
    rw [ih (scanC t c) j (by rw [scanC_props_length]; exact hj)
        (by rw [scanC_props_length, scanC_props_used_length]; exact hlen)]
    rw [scanC_props_used_getD t c j hj hlen, scanC_props_names]
    simp [Bool.or_assoc]

theorem scan_step_field (t : List Char) (ts : List (List Char)) (pfx : List Char)
    (f : Field) :
    (if hitB ts pfx (if strstrB t (depPattern pfx f.name) then
                       { f with is_reactive := true } else f) then
       { (if strstrB t (depPattern pfx f.name) then
            { f with is_reactive := true } else f) with is_reactive := true }
     else (if strstrB t (depPattern pfx f.name) then
             { f with is_reactive := true } else f)) =
    (if hitB (t :: ts) pfx f then { f with is_reactive := true } else f) := by
  rw [hitB_cons]
  by_cases h1 : strstrB t (depPattern pfx f.name) = true
  · simp only [if_pos h1, h1, Bool.true_or, if_pos rfl]
    have hupd : hitB ts pfx { f with is_reactive := true } = hitB ts pfx f := rfl
    by_cases h2 : hitB ts pfx f = true <;> simp [hupd, h2]
  · have h1f : strstrB t (depPattern pfx f.name) = false := by
      cases hb : strstrB t (depPattern pfx f.name)
      · rfl
      · exact absurd hb h1
    simp only [h1f, if_neg (by simp : ¬ (false = true)), Bool.false_or]

/-- The fields list after scanning a list of texts: `is_reactive` is set
exactly on fields hit by some text. -/
theorem scanAllC_state (texts : List (List Char)) :
    ∀ c, (scanAllC texts c).state = c.state.map (fun f =>
      if hitB texts "state.".toList f then { f with is_reactive := true } else f) := by
  induction texts with
  | nil =>
    intro c
    show c.state = _
    refine (List.map_congr_left (fun f _ => ?_)).symm.trans (List.map_id _) |>.symm
    simp [hitB]
  | cons t ts ih =>
    intro c
    rw [scanAllC_cons, ih (scanC t c), scanC_eq]
    show (c.state.map _).map _ = _
    rw [List.map_map]
    exact List.map_congr_left (fun f _ => by
      simp only [Function.comp_apply]
      exact scan_step_field t ts "state.".toList f)

theorem scanAllC_props (texts : List (List Char)) :
    ∀ c, (scanAllC texts c).props = c.props.map (fun f =>
      if hitB texts "props.".toList f then { f with is_reactive := true } else f) := by
  induction texts with
  | nil =>
    intro c
    show c.props = _
    refine (List.map_congr_left (fun f _ => ?_)).symm.trans (List.map_id _) |>.symm
    simp [hitB]
  | cons t ts ih =>
    intro c
    rw [scanAllC_cons, ih (scanC t c), scanC_eq]
    show (c.props.map _).map _ = _
    rw [List.map_map]
    exact List.map_congr_left (fun f _ => by
      simp only [Function.comp_apply]
      exact scan_step_field t ts "props.".toList f)

theorem walk_attrs_eq (attrs : List Attribute) : ∀ (ctx : AnalyzerCtx),
    walk_attrs ctx attrs =
      ⟨scanAllC (attrsTexts attrs) ctx.comp, ctx.errors, ctx.warnings⟩ := by
  induction attrs with
  | nil => intro ctx; rfl
  | cons a rest ih =>
    intro ctx
    show walk_attrs (if a.is_expr then scan_expr_for_deps ctx a.value else ctx) rest = _
    by_cases ha : a.is_expr = true
    · cases hv : a.value with
      | none =>
        rw [if_pos ha]
        show walk_attrs ctx rest = _
        rw [ih ctx]
        simp [attrsTexts, List.filterMap_cons, ha, hv]
      | some v =>
        rw [if_pos ha, scan_some_eq, ih _]
        simp only [attrsTexts, List.filterMap_cons, ha, if_pos rfl, hv]
        rfl
    · have ha' : a.is_expr = false := by
        cases hab : a.is_expr
        · rfl
        · exact absurd hab ha
      rw [if_neg (by rw [ha']; simp)]
      rw [ih ctx]
      simp [attrsTexts, List.filterMap_cons, ha']

mutual

theorem walk_html_eq : ∀ (node : HtmlNode) (ctx : AnalyzerCtx),
    walk_html ctx node =
      ⟨scanAllC (walkTexts node) ctx.comp, ctx.errors, ctx.warnings⟩
  | .mk kind tag attrs children text sc, ctx => by
    cases kind with
    | HTML_EXPR =>
      show scan_expr_for_deps ctx text = _
      cases text with
      | none => rfl
      | some t => rw [scan_some_eq]; rfl
    | HTML_ELEMENT =>
      show walk_children (walk_attrs ctx attrs) children = _
      rw [walk_attrs_eq attrs ctx, walk_children_eq children _]
      show (⟨scanAllC (childTexts children) (scanAllC (attrsTexts attrs) ctx.comp),
            ctx.errors, ctx.warnings⟩ : AnalyzerCtx) = _
      rw [← scanAllC_append]
      rfl
    | HTML_COMPONENT =>
      show walk_children (walk_attrs ctx attrs) children = _
      rw [walk_attrs_eq attrs ctx, walk_children_eq children _]
      show (⟨scanAllC (childTexts children) (scanAllC (attrsTexts attrs) ctx.comp),
            ctx.errors, ctx.warnings⟩ : AnalyzerCtx) = _
      rw [← scanAllC_append]
      rfl
    | HTML_TEXT => rfl
    | HTML_IF => rfl
    | HTML_FOR => rfl

theorem walk_children_eq : ∀ (l : List HtmlNode) (ctx : AnalyzerCtx),
    walk_children ctx l =
      ⟨scanAllC (childTexts l) ctx.comp, ctx.errors, ctx.warnings⟩
  | [], ctx => rfl
  | n :: rest, ctx => by
    show walk_children (walk_html ctx n) rest = _
    rw [walk_html_eq n ctx, walk_children_eq rest _]
    show (⟨scanAllC (childTexts rest) (scanAllC (walkTexts n) ctx.comp),
          ctx.errors, ctx.warnings⟩ : AnalyzerCtx) = _
    rw [← scanAllC_append]
    rfl

end

theorem check_template_eq (ctx : AnalyzerCtx) :
    check_template ctx =
      ⟨ctx.comp, ctx.errors + (if ctx.comp.template_root.isNone then 1 else 0),
       ctx.warnings⟩ := by
  unfold check_template ana_error
  by_cases h : ctx.comp.template_root.isNone <;> simp [h]

theorem handlerStep_spec (ctx : AnalyzerCtx) (h : EventHandler) :
    handlerStep ctx h =
      ⟨(match h.body with | some b => scanC b ctx.comp | none => ctx.comp),
       ctx.errors + (if (h.event_name = none || h.body = none : Bool) then 1 else 0),
       ctx.warnings⟩ := by
  unfold handlerStep ana_error
  cases hb : h.body with
  | none => by_cases hname : h.event_name = none <;> simp [hb, hname]
  | some b =>
    by_cases hname : h.event_name = none <;>
      simp [hb, hname, scan_some_eq]

theorem handlers_fold_eq (hs : List EventHandler) : ∀ (ctx : AnalyzerCtx),
    hs.foldl handlerStep ctx =
    ⟨scanAllC (hs.filterMap (·.body)) ctx.comp,
     ctx.errors + hs.countP (fun h => h.event_name = none || h.body = none),
     ctx.warnings⟩ := by
  induction hs with
  | nil => intro ctx; simp [scanAllC]
  | cons h hs ih =>
    intro ctx
    rw [List.foldl_cons, handlerStep_spec, ih _]
    cases hb : h.body with
    | none =>
      congr 1
      · simp [List.filterMap_cons, hb]
      · rw [List.countP_cons]
        by_cases hname : h.event_name = none <;> simp [hname, hb] <;> omega
    | some b =>
      congr 1
      · rw [show List.filterMap (fun x => EventHandler.body x) (h :: hs) =
              b :: hs.filterMap (·.body) by simp [List.filterMap_cons, hb],
            scanAllC_cons]
      · rw [List.countP_cons]
        by_cases hname : h.event_name = none <;> simp [hname, hb] <;> try omega

theorem check_event_handlers_eq (ctx : AnalyzerCtx) :
    check_event_handlers ctx =
      ⟨scanAllC (ctx.comp.handlers.filterMap (·.body)) ctx.comp,
       ctx.errors + malformedHandlerCount ctx.comp, ctx.warnings⟩ :=
  handlers_fold_eq ctx.comp.handlers ctx

theorem computedStep_spec (ctx : AnalyzerCtx) (cf : ComputedField) :
    computedStep ctx cf =
      ⟨(match cf.expression with | some b => scanC b ctx.comp | none => ctx.comp),
       ctx.errors + (if (cf.expression = none : Bool) then 1 else 0),
       ctx.warnings⟩ := by
  unfold computedStep ana_error
  cases he : cf.expression with
  | none => simp only [he, Option.isNone_none, if_pos rfl]; simp; rfl
  | some b => simp [he, scan_some_eq]

theorem computed_fold_eq (cs : List ComputedField) : ∀ (ctx : AnalyzerCtx),
    cs.foldl computedStep ctx =
    ⟨scanAllC (cs.filterMap (·.expression)) ctx.comp,
     ctx.errors + cs.countP (fun cf => cf.expression = none),
     ctx.warnings⟩ := by
  induction cs with
  | nil => intro ctx; simp [scanAllC]
  | cons cf cs ih =>
    intro ctx
    rw [List.foldl_cons, computedStep_spec, ih _]
    cases he : cf.expression with
    | none =>
      congr 1
      · simp [List.filterMap_cons, he]
      · rw [List.countP_cons]
        simp [he]
        omega
    | some b =>
      congr 1
      · rw [show List.filterMap (fun x => ComputedField.expression x) (cf :: cs) =
              b :: cs.filterMap (·.expression) by simp [List.filterMap_cons, he],
            scanAllC_cons]
      · rw [List.countP_cons]
        simp [he]

theorem check_computed_eq (ctx : AnalyzerCtx) :
    check_computed ctx =
      ⟨scanAllC (ctx.comp.computed.filterMap (·.expression)) ctx.comp,
       ctx.errors + missingComputedCount ctx.comp, ctx.warnings⟩ :=
  computed_fold_eq ctx.comp.computed ctx

theorem warn_range_fold (l : List Nat) (P : Nat → Bool) : ∀ (ctx : AnalyzerCtx),
    l.foldl (fun ctx i => if P i then ctx else ana_warn ctx) ctx =
    ⟨ctx.comp, ctx.errors, ctx.warnings + l.countP (fun i => !(P i))⟩ := by
  induction l with
  | nil => intro ctx; simp
  | cons i l ih =>
    intro ctx
    rw [List.foldl_cons]
    by_cases h : P i = true
    · rw [if_pos h, ih ctx]
      simp [List.countP_cons, h]
    · have hf : P i = false := by
        cases hp : P i
        · rfl
        · exact absurd hp h
      rw [hf]
      simp only [Bool.false_eq_true, if_false]
      rw [ih (ana_warn ctx)]
      congr 1
      rw [List.countP_cons]
      simp [ana_warn, hf]
      omega

theorem check_unused_eq (ctx : AnalyzerCtx) :
    check_unused ctx =
      ⟨ctx.comp, ctx.errors,
       ctx.warnings
       + (List.range ctx.comp.state.length).countP
           (fun i => !(ctx.comp.state_used_in_template.getD i false))
       + (List.range ctx.comp.props.length).countP
           (fun i => !(ctx.comp.props_used_in_template.getD i false))⟩ := by
  unfold check_unused
  rw [warn_range_fold, warn_range_fold]

/-- C9, counterexample: the analyzer callocs `state_count + 1` (and
`prop_count + 1`) entries, not exactly `state_count`: with one state field the
allocated array has length 2. -/
theorem C9_flag_array_length_counterexample :
    (frontComp c7_src).state.length = 1 ∧
    (frontComp c7_src).state_used_in_template.length = 2 ∧
    ¬ ((frontComp c7_src).state_used_in_template.length =
        (frontComp c7_src).state.length) := by
  refine ⟨by decide, by decide, by decide⟩

/-! # Assembling `analyze_component` -/

theorem alloc_state (c : ComponentNode) :
    (alloc_reactive_flags c).state = c.state := rfl

theorem alloc_props (c : ComponentNode) :
    (alloc_reactive_flags c).props = c.props := rfl

theorem alloc_template_root (c : ComponentNode) :
    (alloc_reactive_flags c).template_root = c.template_root := rfl

theorem alloc_style (c : ComponentNode) :
    (alloc_reactive_flags c).style = c.style := rfl

theorem alloc_state_used (c : ComponentNode) :
    (alloc_reactive_flags c).state_used_in_template =
      List.replicate (c.state.length + 1) false := rfl

theorem alloc_props_used (c : ComponentNode) :
    (alloc_reactive_flags c).props_used_in_template =
      List.replicate (c.props.length + 1) false := rfl

theorem scannedTexts_alloc (c : ComponentNode) :
    scannedTexts (alloc_reactive_flags c) = scannedTexts c := rfl

theorem malformed_alloc (c : ComponentNode) :
    malformedHandlerCount (alloc_reactive_flags c) = malformedHandlerCount c := rfl

theorem missing_alloc (c : ComponentNode) :
    missingComputedCount (alloc_reactive_flags c) = missingComputedCount c := rfl

theorem ctx_mk_comp (c : ComponentNode) (e w : Nat) :
    AnalyzerCtx.comp ⟨c, e, w⟩ = c := rfl

theorem ctx_mk_errors (c : ComponentNode) (e w : Nat) :
    AnalyzerCtx.errors ⟨c, e, w⟩ = e := rfl

theorem ctx_mk_warnings (c : ComponentNode) (e w : Nat) :
    AnalyzerCtx.warnings ⟨c, e, w⟩ = w := rfl

theorem malformed_scanAllC (texts : List (List Char)) (c : ComponentNode) :
    malformedHandlerCount (scanAllC texts c) = malformedHandlerCount c := by
  unfold malformedHandlerCount
  rw [scanAllC_handlers]

theorem missing_scanAllC (texts : List (List Char)) (c : ComponentNode) :
    missingComputedCount (scanAllC texts c) = missingComputedCount c := by
  unfold missingComputedCount
  rw [scanAllC_computed]

theorem getD_replicate_false (n j : Nat) :
    (List.replicate n false).getD j false = false := by
  rw [List.getD_eq_getElem?_getD, List.getElem?_replicate]
  by_cases h : j < n <;> simp [h]

theorem countP_range_getD {α} (l : List α) (d : α) (p : α → Bool) :
    (List.range l.length).countP (fun i => p (l.getD i d)) = l.countP p := by
  induction l with
  | nil => rfl
  | cons a l ih =>
    rw [List.length_cons, List.range_succ_eq_map, List.countP_cons, List.countP_map,
        List.countP_cons]
    have hc : (List.range l.length).countP
        ((fun i => p ((a :: l).getD i d)) ∘ Nat.succ) =
        (List.range l.length).countP (fun i => p (l.getD i d)) :=
      List.countP_congr (fun i _ => by
        simp [Function.comp, List.getD_cons_succ])
    rw [hc, ih]
    simp [List.getD_cons_zero]

/-- The error-checking and scanning phases of `analyze_component`
(`analyzer.c:165-172`), assembled: starting from a fresh context the final
context carries the fully scanned component, the accumulated error count, and
no warnings yet. -/
theorem analyze_pipeline_ctx (c0 : ComponentNode) :
    (match (check_computed (check_event_handlers
              (check_template ⟨c0, 0, 0⟩))).comp.template_root with
     | some root =>
         walk_html (check_computed (check_event_handlers
           (check_template ⟨c0, 0, 0⟩))) root
     | none => check_computed (check_event_handlers (check_template ⟨c0, 0, 0⟩))) =
    ⟨scanAllC (scannedTexts c0) c0,
     (if c0.template_root.isNone then 1 else 0) + malformedHandlerCount c0
       + missingComputedCount c0, 0⟩ := by
  simp only [check_template_eq, check_event_handlers_eq, check_computed_eq,
             scanAllC_template_root, scanAllC_computed, scanAllC_handlers,
             malformed_scanAllC, missing_scanAllC,
             ctx_mk_comp, ctx_mk_errors, ctx_mk_warnings]
  split
  · rename_i root hroot
    rw [walk_html_eq]
    simp only [ctx_mk_comp, ctx_mk_errors, ctx_mk_warnings]
    congr 1
    · rw [← scanAllC_append, ← scanAllC_append]
      rw [show scannedTexts c0 = c0.handlers.filterMap (·.body)
            ++ c0.computed.filterMap (·.expression) ++ walkTexts root from by
        simp [scannedTexts, hroot]]
      rw [List.append_assoc]
    · omega
  · rename_i hroot
    congr 1
    · rw [← scanAllC_append]
      rw [show scannedTexts c0 = c0.handlers.filterMap (·.body)
            ++ c0.computed.filterMap (·.expression) from by
        simp [scannedTexts, hroot]]
    · omega

/-- `analyze_component` in closed form: the error count is one for a missing
template plus one per malformed handler plus one per expressionless computed
field; the warning count is one per unused state index plus one per unused
prop index; the returned component is the fully scanned one with the style
dynamism map applied. -/
theorem analyze_component_eq (c : ComponentNode) :
    analyze_component c =
      (⟨(if c.template_root.isNone then 1 else 0) + malformedHandlerCount c
          + missingComputedCount c,
        (List.range c.state.length).countP
            (fun i => !((analyzedComp c).state_used_in_template.getD i false))
          + (List.range c.props.length).countP
            (fun i => !((analyzedComp c).props_used_in_template.getD i false))⟩,
       { analyzedComp c with
         style := c.style.map (fun r =>
           if strstrB r.value "props.".toList || strstrB r.value "state.".toList then
             { r with is_dynamic := true }
           else r) }) := by
  have hp := analyze_pipeline_ctx (alloc_reactive_flags c)
  rw [scannedTexts_alloc, alloc_template_root, malformed_alloc, missing_alloc] at hp
  simp only [analyze_component]
  rw [hp, check_unused_eq]
  simp only [analyzedComp, scanAllC_state_length, scanAllC_props_length,
             scanAllC_style, alloc_state, alloc_props, alloc_style, Nat.zero_add]

/-- After analysis, the used flag of state index `j` is exactly "some scanned
text contains `state.<name>` as a substring". -/
theorem analyzedComp_state_used_getD (c : ComponentNode) (j : Nat)
    (hj : j < c.state.length) :
    (analyzedComp c).state_used_in_template.getD j false =
      stateHit c (c.state.getD j ast_new_field) := by
  unfold analyzedComp
  rw [scanAllC_state_used_getD (scannedTexts c) (alloc_reactive_flags c) j
      (by rw [alloc_state]; exact hj)
      (by rw [alloc_state, alloc_state_used, List.length_replicate]; omega)]
  rw [alloc_state_used, getD_replicate_false, Bool.false_or, alloc_state]
  rw [getD_map_lt c.state Field.name j hj none]
  rw [show c.state.getD j ast_new_field = c.state[j] from by
        rw [List.getD_eq_getElem?_getD, List.getElem?_eq_getElem hj]; rfl]
  rfl

theorem analyzedComp_props_used_getD (c : ComponentNode) (j : Nat)
    (hj : j < c.props.length) :
    (analyzedComp c).props_used_in_template.getD j false =
      propsHit c (c.props.getD j ast_new_field) := by
  unfold analyzedComp
  rw [scanAllC_props_used_getD (scannedTexts c) (alloc_reactive_flags c) j
      (by rw [alloc_props]; exact hj)
      (by rw [alloc_props, alloc_props_used, List.length_replicate]; omega)]
  rw [alloc_props_used, getD_replicate_false, Bool.false_or, alloc_props]
  rw [getD_map_lt c.props Field.name j hj none]
  rw [show c.props.getD j ast_new_field = c.props[j] from by
        rw [List.getD_eq_getElem?_getD, List.getElem?_eq_getElem hj]; rfl]
  rfl

theorem analyze_state_used_getD (c : ComponentNode) (j : Nat)
    (hj : j < c.state.length) :
    (analyze_component c).2.state_used_in_template.getD j false =
      stateHit c (c.state.getD j ast_new_field) := by
  rw [analyze_component_eq]
  exact analyzedComp_state_used_getD c j hj

theorem analyze_props_used_getD (c : ComponentNode) (j : Nat)
    (hj : j < c.props.length) :
    (analyze_component c).2.props_used_in_template.getD j false =
      propsHit c (c.props.getD j ast_new_field) := by
  rw [analyze_component_eq]
  exact analyzedComp_props_used_getD c j hj

theorem analyze_errors_eq (c : ComponentNode) :
    (analyze_component c).1.error_count =
      (if c.template_root.isNone then 1 else 0) + malformedHandlerCount c
        + missingComputedCount c := by
  rw [analyze_component_eq]

/-- The warning count is exactly the number of state fields hit by no scanned
text plus the number of props hit by no scanned text. -/
theorem analyze_warnings_eq (c : ComponentNode) :
    (analyze_component c).1.warning_count =
      c.state.countP (fun f => !(stateHit c f))
      + c.props.countP (fun f => !(propsHit c f)) := by
  rw [analyze_component_eq]
  show (List.range c.state.length).countP _ + (List.range c.props.length).countP _ = _
  have hs : (List.range c.state.length).countP
      (fun i => !((analyzedComp c).state_used_in_template.getD i false)) =
      (List.range c.state.length).countP
      (fun i => !(stateHit c (c.state.getD i ast_new_field))) :=
    List.countP_congr (fun i hi => by
      rw [analyzedComp_state_used_getD c i (List.mem_range.mp hi)])
  have hp : (List.range c.props.length).countP
      (fun i => !((analyzedComp c).props_used_in_template.getD i false)) =
      (List.range c.props.length).countP
      (fun i => !(propsHit c (c.props.getD i ast_new_field))) :=
    List.countP_congr (fun i hi => by
      rw [analyzedComp_props_used_getD c i (List.mem_range.mp hi)])
  rw [hs, hp, countP_range_getD c.state ast_new_field (fun f => !(stateHit c f)),
      countP_range_getD c.props ast_new_field (fun f => !(propsHit c f))]

theorem analyze_state_eq (c : ComponentNode) :
    (analyze_component c).2.state =
      c.state.map (fun f =>
        if stateHit c f then { f with is_reactive := true } else f) := by
  rw [analyze_component_eq]
  show (analyzedComp c).state = _
  unfold analyzedComp
  rw [scanAllC_state, alloc_state]
  rfl

theorem analyze_props_eq (c : ComponentNode) :
    (analyze_component c).2.props =
      c.props.map (fun f =>
        if propsHit c f then { f with is_reactive := true } else f) := by
  rw [analyze_component_eq]
  show (analyzedComp c).props = _
  unfold analyzedComp
  rw [scanAllC_props, alloc_props]
  rfl

theorem analyze_style_eq (c : ComponentNode) :
    (analyze_component c).2.style =
      c.style.map (fun r =>
        if dynStyleB r.value then { r with is_dynamic := true } else r) := by
  rw [analyze_component_eq]
  rfl

theorem analyze_state_used_length (c : ComponentNode) :
    (analyze_component c).2.state_used_in_template.length = c.state.length + 1 := by
  rw [analyze_component_eq]
  show (analyzedComp c).state_used_in_template.length = _
  unfold analyzedComp
  rw [scanAllC_state_used_length, alloc_state_used, List.length_replicate]

theorem analyze_props_used_length (c : ComponentNode) :
    (analyze_component c).2.props_used_in_template.length = c.props.length + 1 := by
  rw [analyze_component_eq]
  show (analyzedComp c).props_used_in_template.length = _
  unfold analyzedComp
  rw [scanAllC_props_used_length, alloc_props_used, List.length_replicate]

/-! # Style dynamism through the parser -/

/-- Every rule `style_loop` appends carries
`is_dynamic = strstr(value, "props.") || strstr(value, "state.")`. -/
theorem style_loop_dyn : ∀ (fuel : Nat) (p : ParserS) (acc : List StyleRule),
    (∀ r ∈ acc, r.is_dynamic = dynStyleB r.value) →
    ∀ r ∈ (style_loop fuel p acc).1, r.is_dynamic = dynStyleB r.value := by
  intro fuel
  induction fuel with
  | zero => intro p acc hacc; exact hacc
  | succ fuel ih =>
    intro p acc hacc r hr
    simp only [style_loop] at hr
    split at hr
    · split at hr
      · exact hacc r hr
      · exact ih _ _ (fun s hs => by
          rcases List.mem_append.mp hs with h | h
          · exact hacc s h
          · rw [List.mem_singleton] at h
            subst h
            rfl) r hr
    · exact hacc r hr

theorem parse_style_section_dyn (fuel : Nat) (p : ParserS) (c0 : ComponentNode)
    (h0 : ∀ r ∈ c0.style, r.is_dynamic = dynStyleB r.value) :
    ∀ r ∈ (parse_style_section fuel p c0).1.style,
      r.is_dynamic = dynStyleB r.value := by
  intro r hr
  simp only [parse_style_section] at hr
  split at hr
  · exact h0 r hr
  · split at hr <;>
      exact style_loop_dyn fuel _ [] (fun s hs => absurd hs (List.not_mem_nil s)) r hr

/-- The analyzer's style map preserves the invariant (it can only re-assert
`is_dynamic := true` on rules whose value contains a pattern). -/
theorem analyze_style_inv (c : ComponentNode)
    (hc : ∀ r ∈ c.style, r.is_dynamic = dynStyleB r.value) :
    ∀ r ∈ (analyze_component c).2.style, r.is_dynamic = dynStyleB r.value := by
  rw [analyze_style_eq]
  intro r hr
  rcases List.mem_map.mp hr with ⟨s, hs, rfl⟩
  by_cases hd : dynStyleB s.value = true
  · simp [hd]
  · have hf : dynStyleB s.value = false := by
      cases h : dynStyleB s.value
      · rfl
      · exact absurd h hd
    simp only [hf, Bool.false_eq_true, if_false]
    exact (hc s hs).trans hf

/-! # Claims C4, C6, C7, C8, C9 -/

/-- C4: after analysis, state field `j` has `state_used[j] = true` and
`is_reactive` set exactly when some scanned text (handler body, computed
expression, or template walk text) contains the literal substring
`state.<name>` (likewise for props with `props.`); the pattern is the plain
`snprintf`-built string (un-truncated whenever the name fits in the 256-byte
buffer) and the match is plain `strstr` substring search with no identifier
boundaries, so `state.counter` marks a field named `count`; on the spec's
example the field is marked used with zero warnings. -/
theorem C4_substring_reactivity :
    (∀ (c : ComponentNode) (j : Nat), j < c.state.length →
      (analyze_component c).2.state_used_in_template.getD j false =
        stateHit c (c.state.getD j ast_new_field)) ∧
    (∀ (c : ComponentNode) (j : Nat), j < c.props.length →
      (analyze_component c).2.props_used_in_template.getD j false =
        propsHit c (c.props.getD j ast_new_field)) ∧
    (∀ c : ComponentNode, (analyze_component c).2.state =
      c.state.map (fun f =>
        if stateHit c f then { f with is_reactive := true } else f)) ∧
    (∀ c : ComponentNode, (analyze_component c).2.props =
      c.props.map (fun f =>
        if propsHit c f then { f with is_reactive := true } else f)) ∧
    (∀ name : List Char, name.length ≤ 249 →
      depPattern "state.".toList (some name) = "state.".toList ++ name) ∧
    strstrB "state.counter".toList "state.count".toList = true ∧
    ((frontComp c4_src).state_used_in_template.getD 0 false = true ∧
      (frontComp c4_src).state.map Field.is_reactive = [true] ∧
      frontRes c4_src = ⟨0, 0⟩ ∧ frontParseErrors c4_src = 0) ∧
    ((frontComp c4_boundary_src).state_used_in_template.getD 0 false = true ∧
      (frontComp c4_boundary_src).state.map Field.is_reactive = [true] ∧
      frontRes c4_boundary_src = ⟨0, 0⟩) := by
  refine ⟨fun c j hj => analyze_state_used_getD c j hj,
          fun c j hj => analyze_props_used_getD c j hj,
          analyze_state_eq, analyze_props_eq,
          fun name hn => ?_, by decide,
          ⟨by decide, by decide, by decide, by decide⟩,
          ⟨by decide, by decide, by decide⟩⟩
  show ("state.".toList ++ name).take 255 = "state.".toList ++ name
  rw [List.take_of_length_le]
  rw [List.length_append]
  have : ("state.".toList).length = 6 := by decide
  omega

theorem C4_substring_reactivity_witness :
    0 < c4_witness_comp.state.length ∧
    (analyze_component c4_witness_comp).2.state_used_in_template.getD 0 false =
      stateHit c4_witness_comp (c4_witness_comp.state.getD 0 ast_new_field) ∧
    depPattern "state.".toList (some "count".toList) =
      "state.".toList ++ "count".toList := by
  obtain ⟨h1, _, _, _, h5, _⟩ := C4_substring_reactivity
  exact ⟨by decide, h1 c4_witness_comp 0 (by decide), h5 "count".toList (by decide)⟩

/-- C6: a component with no `@template` section parses with zero parse errors
and `template_root` still `NULL`; the analyzer then reports the missing
template as an error (`error_count ≥ 1`, exactly `1` plus the malformed
handler/computed errors), while its remaining checks still run: the warning
count is still the unused-field count, and on the concrete source the result
is one error and two warnings (unused `x` and unused `a`). -/
theorem C6_missing_template :
    (frontParseErrors c6_src = 0 ∧
      (compile_front 200 c6_src).1.components.length = 1 ∧
      (frontComp c6_src).template_root.isNone = true ∧
      (frontComp c6_src).name = some "T".toList ∧
      (frontComp c6_src).state.map Field.name = [some "x".toList] ∧
      (frontComp c6_src).props.map Field.name = [some "a".toList]) ∧
    (∀ c : ComponentNode, c.template_root = none →
      (analyze_component c).1.error_count =
        1 + malformedHandlerCount c + missingComputedCount c) ∧
    (∀ c : ComponentNode, c.template_root = none →
      1 ≤ (analyze_component c).1.error_count) ∧
    (∀ c : ComponentNode,
      (analyze_component c).1.warning_count =
        c.state.countP (fun f => !(stateHit c f))
        + c.props.countP (fun f => !(propsHit c f))) ∧
    frontRes c6_src = ⟨1, 2⟩ := by
  have herr : ∀ c : ComponentNode, c.template_root = none →
      (analyze_component c).1.error_count =
        1 + malformedHandlerCount c + missingComputedCount c := by
    intro c hc
    rw [analyze_errors_eq, hc]
    rfl
  refine ⟨⟨by decide, by decide, by decide, by decide, by decide, by decide⟩,
          herr, fun c hc => ?_, analyze_warnings_eq, by decide⟩
  rw [herr c hc]
  omega

theorem C6_missing_template_witness :
    (analyze_component ({} : ComponentNode)).1.error_count =
      1 + malformedHandlerCount {} + missingComputedCount {} ∧
    1 ≤ (analyze_component ({} : ComponentNode)).1.error_count := by
  obtain ⟨_, h2, h3, _, _⟩ := C6_missing_template
  exact ⟨h2 {} rfl, h3 {} rfl⟩

/-- C7: unused fields produce warnings, not errors — the warning count equals
the number of state fields hit by no scanned text plus the number of such
props (one warning each), and a component whose template is present and whose
handlers and computed fields are well-formed has `error_count = 0`; on the
spec's example: zero errors, exactly one warning, for `unused`. -/
theorem C7_unused_warnings :
    (∀ c : ComponentNode,
      c.template_root.isNone = false →
      malformedHandlerCount c = 0 →
      missingComputedCount c = 0 →
      (analyze_component c).1.error_count = 0) ∧
    (∀ c : ComponentNode,
      (analyze_component c).1.warning_count =
        c.state.countP (fun f => !(stateHit c f))
        + c.props.countP (fun f => !(propsHit c f))) ∧
    (frontRes c7_src = ⟨0, 1⟩ ∧
      (frontComp c7_src).state.map Field.name = [some "unused".toList] ∧
      (frontComp c7_src).state.map Field.is_reactive = [false] ∧
      (frontComp c7_src).state_used_in_template.getD 0 false = false ∧
      frontParseErrors c7_src = 0) := by
  refine ⟨fun c h1 h2 h3 => ?_, analyze_warnings_eq,
          ⟨by decide, by decide, by decide, by decide, by decide⟩⟩
  rw [analyze_errors_eq, h1, h2, h3]
  simp

theorem C7_unused_warnings_witness :
    (analyze_component (frontComp c7_src)).1.error_count = 0 := by
  obtain ⟨h1, _, _⟩ := C7_unused_warnings
  exact h1 (frontComp c7_src) (by decide) (by decide) (by decide)

/-- C8: a parsed style rule's `is_dynamic` is set at parse time to exactly
"the trimmed value text contains `props.` or `state.`", the analyzer's final
style map preserves that equivalence (it re-asserts `is_dynamic := true`
exactly on rules whose value contains a pattern), so after parsing and
analysis `is_dynamic = true` iff the value contains one of the substrings;
`color: props.theme;` is dynamic and `color: red;` is not. -/
theorem C8_dynamic_styles :
    (∀ c : ComponentNode, (analyze_component c).2.style =
      c.style.map (fun r =>
        if dynStyleB r.value then { r with is_dynamic := true } else r)) ∧
    (∀ (fuel : Nat) (p : ParserS) (c0 : ComponentNode),
      (∀ r ∈ c0.style, r.is_dynamic = dynStyleB r.value) →
      ∀ r ∈ (analyze_component (parse_style_section fuel p c0).1).2.style,
        r.is_dynamic = dynStyleB r.value) ∧
    (dynStyleB "props.theme".toList = true ∧ dynStyleB "red".toList = false) ∧
    ((frontComp c8_dyn_src).style.map StyleRule.value = ["props.theme".toList] ∧
      (frontComp c8_dyn_src).style.map StyleRule.is_dynamic = [true] ∧
      (frontComp c8_static_src).style.map StyleRule.value = ["red".toList] ∧
      (frontComp c8_static_src).style.map StyleRule.is_dynamic = [false] ∧
      frontParseErrors c8_dyn_src = 0 ∧ frontParseErrors c8_static_src = 0) := by
  refine ⟨analyze_style_eq,
          fun fuel p c0 h0 => analyze_style_inv _ (parse_style_section_dyn fuel p c0 h0),
          ⟨by decide, by decide⟩,
          ⟨by decide, by decide, by decide, by decide, by decide, by decide⟩⟩

theorem C8_dynamic_styles_witness :
    ({ property := "color".toList, value := "props.theme".toList,
       is_dynamic := true } : StyleRule).is_dynamic =
      dynStyleB "props.theme".toList := by
  obtain ⟨_, h2, _, _⟩ := C8_dynamic_styles
  exact h2 100 (parser_init c8_witness_src) {}
    (fun r hr => absurd hr (List.not_mem_nil r))
    { property := "color".toList, value := "props.theme".toList, is_dynamic := true }
    (by decide)

/-- C9, amended: the analyzer's reactivity arrays are calloced with
`count + 1` entries each — every entry `false` before any scanning — and keep
that length through analysis; index `j < count` corresponds to `state[j]` /
`props[j]` (its final value is exactly field `j`'s hit bit). -/
theorem C9_reactive_flag_arrays :
    (∀ c : ComponentNode,
      (alloc_reactive_flags c).state_used_in_template =
        List.replicate (c.state.length + 1) false ∧
      (alloc_reactive_flags c).props_used_in_template =
        List.replicate (c.props.length + 1) false) ∧
    (∀ c : ComponentNode,
      (analyze_component c).2.state_used_in_template.length = c.state.length + 1 ∧
      (analyze_component c).2.props_used_in_template.length = c.props.length + 1) ∧
    (∀ (c : ComponentNode) (j : Nat), j < c.state.length →
      (analyze_component c).2.state_used_in_template.getD j false =
        stateHit c (c.state.getD j ast_new_field)) ∧
    (∀ (c : ComponentNode) (j : Nat), j < c.props.length →
      (analyze_component c).2.props_used_in_template.getD j false =
        propsHit c (c.props.getD j ast_new_field)) := by
  exact ⟨fun c => ⟨alloc_state_used c, alloc_props_used c⟩,
         fun c => ⟨analyze_state_used_length c, analyze_props_used_length c⟩,
         fun c j hj => analyze_state_used_getD c j hj,
         fun c j hj => analyze_props_used_getD c j hj⟩

theorem C9_reactive_flag_arrays_witness :
    0 < (frontComp c4_boundary_src).state.length ∧
    (analyze_component (frontComp c4_boundary_src)).2.state_used_in_template.getD
        0 false =
      stateHit (frontComp c4_boundary_src)
        ((frontComp c4_boundary_src).state.getD 0 ast_new_field) := by
  obtain ⟨_, _, h3, _⟩ := C9_reactive_flag_arrays
  exact ⟨by decide, h3 (frontComp c4_boundary_src) 0 (by decide)⟩

end Forge
